import Mathlib

/-!
# ReconTools: the enrichment pipeline of `main.go`

A shallow embedding of `src/main.go`.  Go strings are Lean strings, the
`interface{}` trees built by `gabs.ParseJSON` are values of `JSON`, a
`*gabs.Container` is an `Option JSON` (`none` is the nil pointer), and a run
of the program is a trace of events (adapter calls and console output)
together with the way the run ended.

What the program cannot decide by itself is gathered in `World`: the HTTP
responses, the JSON parser behind `gabs.ParseJSON`, the record blocks goquery
selects from an HTML page and the iteration order of Go maps.  The order in
which the goroutines of `queryPTAll` get to their end is a parameter of its
model.
-/

namespace ReconTools

/-! ## The `strings` package -/

/-- The case `old == ""` of `strings.Replace`: `new` is inserted before every
character and at the end of the string, `lim` insertions at most. -/
def replaceEmpty (new : List Char) : Option Nat → List Char → List Char
  | some 0, s => s
  | _, [] => new
  | lim, c :: t => new ++ c :: replaceEmpty new (lim.map (· - 1)) t

/-- The scan of `strings.Replace` for a non-empty `old`: `lim` is the number of
replacements still allowed (`none` is no limit) and `skip` counts the
characters of the occurrence just replaced that are still to be dropped. -/
def replaceScan (old new : List Char) : Option Nat → Nat → List Char → List Char
  | _, _, [] => []
  | lim, skip + 1, _ :: t => replaceScan old new lim skip t
  | lim, 0, c :: t =>
    if lim ≠ some 0 ∧ old.isPrefixOf (c :: t) = true then
      new ++ replaceScan old new (lim.map (· - 1)) (old.length - 1) t
    else c :: replaceScan old new lim 0 t

/-- Go `strings.Replace(s, old, new, n)`: the first `n` non-overlapping
occurrences of `old` are replaced by `new`; a negative `n` is no limit and
`n = 0` leaves `s` as it is. -/
def Replace (s old new : String) (n : Int) : String :=
  let lim : Option Nat := if n < 0 then none else some n.toNat
  if old.data = [] then String.mk (replaceEmpty new.data lim s.data)
  else String.mk (replaceScan old.data new.data lim 0 s.data)

/-- The scan of `strings.Split` for a non-empty separator.  The result is never
empty: its head is the piece being read. -/
def splitScan (sep : List Char) : Nat → List Char → List (List Char)
  | _, [] => [[]]
  | skip + 1, _ :: t => splitScan sep skip t
  | 0, c :: t =>
    if sep.isPrefixOf (c :: t) = true then [] :: splitScan sep (sep.length - 1) t
    else
      match splitScan sep 0 t with
      | [] => [[c]]
      | seg :: rest => (c :: seg) :: rest

/-- Go `strings.Split(s, sep)`: the pieces of `s` between the occurrences of
`sep`; an empty `sep` splits after every character. -/
def Split (s sep : String) : List String :=
  if sep.data = [] then s.data.map (fun c => String.mk [c])
  else (splitScan sep.data 0 s.data).map String.mk

/-- The digits of a decimal numeral, most significant first. -/
def digitsValue : List Char → Option Nat
  | [] => none
  | cs =>
    if cs.all (fun c => 48 ≤ c.toNat ∧ c.toNat ≤ 57) then
      some (cs.foldl (fun acc c => 10 * acc + (c.toNat - 48)) 0)
    else none

/-- Go `strconv.Atoi`: an optional sign followed by decimal digits (`none` is
the error result). -/
def Atoi (s : String) : Option Int :=
  match s.data with
  | [] => none
  | c :: rest =>
    if c.toNat = 45 then (digitsValue rest).map (fun n => - (n : Int))
    else if c.toNat = 43 then (digitsValue rest).map (fun n => (n : Int))
    else (digitsValue (c :: rest)).map (fun n => (n : Int))

/-! ## JSON values and `encoding/json` -/

/-- The value `json.Unmarshal` stores in an `interface{}`: `nil`, `bool`,
`float64`, `string`, `[]interface{}` or `map[string]interface{}`.  A `float64`
is carried as the text `json.Marshal` writes for it, and a map as the list of
its entries. -/
inductive JSON where
  | null
  | bool (b : Bool)
  | num (text : String)
  | str (s : String)
  | arr (xs : List JSON)
  | obj (kvs : List (String × JSON))

/-- One lower-case hexadecimal digit. -/
def hexDigit (n : Nat) : Char :=
  if n < 10 then Char.ofNat (48 + n) else Char.ofNat (87 + n)

/-- How `json.Marshal` writes one character of a string (HTML escaping on, as
it is by default). -/
def escapeChar (c : Char) : List Char :=
  if c.toNat = 34 then "\\\"".data
  else if c.toNat = 92 then "\\\\".data
  else if c.toNat = 10 then "\\n".data
  else if c.toNat = 13 then "\\r".data
  else if c.toNat = 9 then "\\t".data
  else if c.toNat < 32 ∨ c.toNat = 60 ∨ c.toNat = 62 ∨ c.toNat = 38 then
    "\\u00".data ++ [hexDigit (c.toNat / 16), hexDigit (c.toNat % 16)]
  else if c.toNat = 0x2028 then "\\u2028".data
  else if c.toNat = 0x2029 then "\\u2029".data
  else [c]

/-- A Go string as a JSON string literal. -/
def quote (s : String) : String :=
  String.mk ("\"".data ++ s.data.flatMap escapeChar ++ "\"".data)

/-- Byte order on strings (the order of the code points), which is the order
`json.Marshal` sorts map keys in. -/
def ltChars : List Char → List Char → Bool
  | [], [] => false
  | [], _ :: _ => true
  | _ :: _, [] => false
  | a :: as, b :: bs =>
    if a.toNat < b.toNat then true else if b.toNat < a.toNat then false else ltChars as bs

/-- Insertion of one rendered entry into a list sorted by key. -/
def insertField (kv : String × String) : List (String × String) → List (String × String)
  | [] => [kv]
  | x :: rest => if ltChars kv.1.data x.1.data then kv :: x :: rest else x :: insertField kv rest

/-- The rendered entries of a map, sorted by key. -/
def sortFields : List (String × String) → List (String × String)
  | [] => []
  | x :: rest => insertField x (sortFields rest)

/-- The texts joined by commas. -/
def joinComma : List String → String
  | [] => ""
  | [x] => x
  | x :: y :: rest => x ++ "," ++ joinComma (y :: rest)

mutual
/-- Go `json.Marshal` on an `interface{}` tree. -/
def marshal : JSON → String
  | .null => "null"
  | .bool true => "true"
  | .bool false => "false"
  | .num t => t
  | .str s => quote s
  | .arr xs => "[" ++ joinComma (marshalList xs) ++ "]"
  | .obj kvs =>
    "\x7b" ++ joinComma ((sortFields (marshalFields kvs)).map (fun kv => quote kv.1 ++ ":" ++ kv.2))
      ++ "\x7d"
termination_by structural x => x
/-- The elements of an array, each marshalled. -/
def marshalList : List JSON → List String
  | [] => []
  | x :: xs => marshal x :: marshalList xs
termination_by structural x => x
/-- The entries of a map, each value marshalled. -/
def marshalFields : List (String × JSON) → List (String × String)
  | [] => []
  | (k, v) :: rest => (k, marshal v) :: marshalFields rest
termination_by structural x => x
end

/-! ## The `gabs` container -/

/-- A `*gabs.Container`: `none` is the nil pointer, `some v` a container whose
object is `v`. -/
abbrev Container := Option JSON

/-- Method `Data`: the object of the container, nil for the nil container. -/
def Data : Container → JSON
  | none => .null
  | some v => v

/-- Method `String`: `json.Marshal` of the object (so `null` for a nil
container). -/
def Container.String (c : Container) : String := marshal (Data c)

/-- The entry of a Go map under a key. -/
def mapGet (key : String) : List (String × JSON) → Option JSON
  | [] => none
  | (k, v) :: rest => if k = key then some v else mapGet key rest

/-- The map with `key` bound to `v`. -/
def mapSet (key : String) (v : JSON) : List (String × JSON) → List (String × JSON)
  | [] => [(key, v)]
  | (k, x) :: rest => if k = key then (k, v) :: rest else (k, x) :: mapSet key v rest

/-- The loop of `searchStrict` with wildcards allowed, as `Search` runs it: a
map is entered by key, an array by the wildcard `*` (the search goes on in
every element and the hits are collected) or by a decimal index, and anything
else ends the search with the nil container. -/
def search : JSON → List String → Container
  | object, [] => some object
  | .obj kvs, seg :: rest =>
    match mapGet seg kvs with
    | none => none
    | some v => search v rest
  | .arr xs, seg :: rest =>
    if seg = "*" then
      let tmpArray := xs.filterMap (fun val =>
        match rest with
        | [] => some val
        | _ :: _ => (search val rest).map (fun res => Data (some res)))
      if tmpArray.isEmpty then none else some (.arr tmpArray)
    else
      match Atoi seg with
      | none => none
      | some index =>
        if index < 0 then none
        else
          match xs.get? index.toNat with
          | none => none
          | some v => search v rest
  | _, _ :: _ => none

/-- Method `Search`. -/
def Search (c : Container) (hierarchy : List String) : Container :=
  search (Data c) hierarchy

/-- Go `gabs.DotPathToSlice`: the path is split on the dots, and in every
segment `~1` stands for a dot and `~0` for a tilde. -/
def DotPathToSlice (path : String) : List String :=
  (Split path ".").map (fun v =>
    if v.length > 0 then Replace (Replace v "~1" "." (-1)) "~0" "~" (-1) else v)

/-- Method `Path`. -/
def Path (c : Container) (path : String) : Container :=
  Search c (DotPathToSlice path)

/-- Method `Set` on maps: the value is stored under the path, missing (or nil)
intermediate maps are created, and a path that runs into anything else is an
error that leaves the object as it is.  Every path set in `main.go` has one
segment and leads into a map made by `gabs.New`. -/
def set (value : JSON) : List String → JSON → JSON
  | [], _ => value
  | seg :: rest, .obj kvs =>
    .obj (mapSet seg (set value rest ((mapGet seg kvs).getD .null)) kvs)
  | seg :: rest, .null => .obj [(seg, set value rest .null)]
  | _ :: _, object => object

/-- Go `gabs.New`: a container holding an empty map. -/
def New : JSON := .obj []

/-- Method `SetP`. -/
def SetP (g : JSON) (value : JSON) (path : String) : JSON :=
  set value (DotPathToSlice path) g

/-- Method `Array`: an empty array is set at the key. -/
def Array (g : JSON) (key : String) : JSON :=
  set (.arr []) [key] g

/-- Method `ArrayAppendP`: the value is appended to the array at the path; a
target that is no array becomes the first element of a new one. -/
def ArrayAppendP (g : JSON) (value : JSON) (path : String) : JSON :=
  match Data (Search (some g) (DotPathToSlice path)) with
  | .arr array => set (.arr (array ++ [value])) (DotPathToSlice path) g
  | other => set (.arr [other, value]) (DotPathToSlice path) g

/-! ## Runs of the program -/

/-- The package-level variables `main` reads: the parsed flags. -/
structure Flags where
  org : String
  network : Bool
  ports : Bool
  banner : Bool
  employees : Bool
  doxx : Bool
  output : String

/-- The package-level variables read from the environment or set before `main`
starts. -/
structure Config where
  UserAgentString : String
  HunterAPIKey : String
  ShodanAPIKey : String

/-- An HTTP request as the adapters build it. -/
structure Request where
  method : String
  url : String
  body : String
  headers : List (String × String)

/-- What the transport gives back for a request: an error of `http.Get`,
`http.NewRequest` or `Client.Do` (no response), a body read to its end, or a
body whose read broke off with an error after `got`. -/
inductive Response where
  | transportError
  | ok (body : String)
  | readError (got : String)

/-- One `.ThatsThem-record` block of a people-search page, as the texts of the
five `itemprop` selections `getPerson` makes inside it. -/
structure Record where
  name : String
  streetAddress : String
  addressLocality : String
  addressRegion : String
  telephone : String

/-- Everything outside the program. -/
structure World where
  /-- The transport. -/
  http : Request → Response
  /-- Go `gabs.ParseJSON`; `none` is the error result. -/
  parseJSON : String → Option JSON
  /-- The selection `Find(".ThatsThem-record")` of the parsed page, in document
  order. -/
  records : String → List Record
  /-- The order in which a `range` over a Go map visits its values. -/
  rangeOrder : List (String × JSON) → List JSON

/-- An argument of `fmt.Println` or `log.Fatal`. -/
inductive Arg where
  | text (s : String)
  | value (v : JSON)
  | container (c : Container)
  | strings (xs : List String)
  | error

/-- The calls `main` makes, directly, to the adapters. -/
inductive Call where
  | getOrganizationByName (OrgName : String)
  | getOrganizationDetails (OrgID : String)
  | getPerson (queryType query state : String)
  | getEmployees (domain : String)
  | getSubDomains (domain : String)
  | queryShodan (Query : String)
  deriving DecidableEq

/-- What a run does that can be seen from outside. -/
inductive Event where
  | call (c : Call)
  | println (args : List Arg)
  | redPrintln (s : String)
  | redPrint (s : String)
  | cyanPrint (s : String)
  | usage

/-- The ways a run ends early: `log.Fatal` (the arguments are logged and the
process exits) or a run-time panic. -/
inductive Failure where
  | fatal (args : List Arg)
  | indexOutOfRange
  | typeAssertion
  | nilDereference

/-- A run: the events so far, and the value computed or the failure that ended
the run. -/
structure Run (α : Type) where
  trace : List Event
  outcome : Except Failure α

/-- A run that does nothing and yields `a`. -/
def Run.pure {α : Type} (a : α) : Run α := ⟨[], .ok a⟩

/-- Sequencing: the second run happens only if the first did not fail. -/
def Run.bind {α β : Type} (m : Run α) (f : α → Run β) : Run β :=
  match m.outcome with
  | .error e => ⟨m.trace, .error e⟩
  | .ok a => ⟨m.trace ++ (f a).trace, (f a).outcome⟩

instance : Monad Run where
  pure := Run.pure
  bind := Run.bind

/-- One event. -/
def emit (e : Event) : Run Unit := ⟨[e], .ok ()⟩

/-- The run ends here. -/
def abort {α : Type} (e : Failure) : Run α := ⟨[], .error e⟩

/-- The index expression `xs[i]`. -/
def index {α : Type} (xs : List α) (i : Nat) : Run α :=
  match xs.get? i with
  | some x => Run.pure x
  | none => abort .indexOutOfRange

/-- The type assertion `v.(string)`. -/
def assertString : JSON → Run String
  | .str s => Run.pure s
  | _ => abort .typeAssertion

/-- A `for ... range` loop over a slice. -/
def forEach {α : Type} (body : α → Run Unit) : List α → Run Unit
  | [] => Run.pure ()
  | x :: rest => Run.bind (body x) (fun _ => forEach body rest)

/-- Method `Children`: the elements of an array, the values of a map in the
order a `range` visits them, and nothing for anything else. -/
def Children (w : World) (c : Container) : List Container :=
  match Data c with
  | .arr array => array.map some
  | .obj mmap => (w.rangeOrder mmap).map some
  | _ => []

/-! ## The adapters -/

def OwlerSearchURL : String :=
  "https://www.owler.com/iaApp/basicSearchCompanySuggestions.htm?searchTerm=QUERY"

def OwlerDetailsURL : String := "https://www.owler.com/iaApp/fetchCompanyProfileData.htm"

def OSINTBaseURL : String := "https://thatsthem.com/QUERYTYPE/QUERY"

def ShodanBaseURL : String :=
  "https://api.shodan.io/shodan/host/search?key=APIKEY&minify=true&query=\x27net:QUERY\x27"

/-- A request without body or headers. -/
def plainRequest (method url : String) : Request :=
  ⟨method, url, "", []⟩

/-- Function `getEmployees` (lines 70-104). -/
def getEmployees (cfg : Config) (w : World) (domain : String) : Run String := do
  emit (.call (.getEmployees domain))
  let requestURL :=
    if cfg.HunterAPIKey = "" then
      "https://hunter.io/trial/v2/domain-search?limit=10&offset=0&domain=" ++ domain ++ "&format=json"
    else
      "https://hunter.io/v2/domain-search?limit=60&offset=0&domain=" ++ domain
        ++ "&format=json&api_key=" ++ cfg.HunterAPIKey
  let message ←
    match w.http (plainRequest "GET" requestURL) with
    | .transportError => abort .nilDereference
    | .ok body => Run.pure body
    | .readError got => Run.pure got
  match w.parseJSON message with
  | none => abort (.fatal [.text "Error ", .text message, .error])
  | some parsed =>
    let prettyPrint : Container := some parsed
    let domainEmails := Path prettyPrint "data.emails"
    let Employees := Children w domainEmails
    if Employees.length > 0 then
      forEach (fun email =>
        emit (.println [
          .text (Replace (Path email "first_name").String "\"" "" 2),
          .text (Replace (Path email "last_name").String "\"" "" 2),
          .text "\t\t\t",
          .text (Replace (Path email "position").String "\"" "" 2),
          .text (Replace (Path email "value").String "\"" "" 2)])) Employees
    else
      emit (.println [.container prettyPrint])
    Run.pure domainEmails.String

/-- Function `queryShodan` (lines 118-146). -/
def queryShodan (cfg : Config) (w : World) (f : Flags) (Query : String) : Run JSON := do
  emit (.call (.queryShodan Query))
  if cfg.ShodanAPIKey ≠ "" then
    let requestURL := Replace ShodanBaseURL "APIKEY" cfg.ShodanAPIKey 1
    let requestURL := Replace requestURL "QUERY" Query 1
    let message ←
      match w.http (plainRequest "GET" requestURL) with
      | .transportError => abort .nilDereference
      | .ok body => Run.pure body
      | .readError got => Run.pure got
    let prettyPrint : Container := w.parseJSON message
    let openPorts := (Path prettyPrint "matches.*.port").String
    let nodeData := (Path prettyPrint "matches.*.data").String
    match prettyPrint with
    | none => abort (.fatal [.text "Shodan Error ", .text message, .error])
    | some parsed =>
      emit (.redPrint "Ports: ")
      emit (.println [.text openPorts, .text "\n"])
      if f.banner then
        emit (.redPrint "Banner: ")
        emit (.println [.text nodeData, .text "\n"])
      Run.pure parsed
  else
    Run.pure .null

/-- The body of the `Each` callback of `getPerson` (lines 226-242): the record
as the text appended to the results. -/
def targetResult (s : Record) : String :=
  let targetName := (Split s.name "\n").headD ""
  let r := New
  let r := SetP r (.str targetName) "Name"
  let r := SetP r (.str s.streetAddress) "Address"
  let r := SetP r (.str s.addressLocality) "City"
  let r := SetP r (.str s.addressRegion) "State"
  let r := SetP r (.str s.telephone) "Phone"
  marshal r

/-- The container `searchResults` of `getPerson` once the page has been walked
(lines 224-243). -/
def searchResults (blocks : List Record) : JSON :=
  blocks.foldl (fun acc s => ArrayAppendP acc (.str (targetResult s)) "results")
    (Array New "results")

/-- Function `getPerson` (lines 211-245). -/
def getPerson (w : World) (queryType query state : String) : Run String := do
  emit (.call (.getPerson queryType query state))
  let requestURL := Replace OSINTBaseURL "QUERYTYPE" queryType 1
  let requestURL := Replace requestURL "QUERY" query 1
  let requestURL := Replace requestURL "STATE" state 1
  match w.http (plainRequest "GET" requestURL) with
  | .transportError => abort .nilDereference
  | .readError _ =>
    emit (.println [.error])
    abort .nilDereference
  | .ok body => Run.pure (marshal (searchResults (w.records body)))

/-- Function `getOrganizationByName` (lines 324-336). -/
def getOrganizationByName (w : World) (OrgName : String) : Run String := do
  emit (.call (.getOrganizationByName OrgName))
  let requestURL := Replace OwlerSearchURL "QUERY" OrgName 1
  match w.http (plainRequest "GET" requestURL) with
  | .transportError => abort (.fatal [.error])
  | .readError _ => abort (.fatal [.text "", .error])
  | .ok body => Run.pure body

/-- The request body of `getOrganizationDetails` (lines 342-345). -/
def requestBodyJSON (OrgID : String) : JSON :=
  let r := New
  let r := SetP r (.str "cp") "section"
  let r := SetP r (.str OrgID) "companyId"
  SetP r (.arr [.str "company_info", .str "ceo", .str "top_competitors", .str "keystats",
    .str "cp"]) "components"

/-- Function `getOrganizationDetails` (lines 338-362). -/
def getOrganizationDetails (cfg : Config) (w : World) (OrgID : String) : Run String := do
  emit (.call (.getOrganizationDetails OrgID))
  let httpRequest : Request :=
    ⟨"POST", OwlerDetailsURL, marshal (requestBodyJSON OrgID),
      [("Origin", "https://www.owler.com"), ("User-Agent", cfg.UserAgentString),
       ("Content-Type", "application/json"), ("DNT", "1"), ("Accept", "*/*")]⟩
  match w.http httpRequest with
  | .transportError => abort .nilDereference
  | .readError _ => abort (.fatal [.error])
  | .ok body => Run.pure body

/-- Function `getSubDomains` (lines 364-381). -/
def getSubDomains (w : World) (domain : String) : Run String := do
  emit (.call (.getSubDomains domain))
  let DNSDUmpsterSearchURL := "http://api.hackertarget.com/hostsearch/?q=QUERY"
  let requestURL := Replace DNSDUmpsterSearchURL "QUERY" domain 1
  match w.http (plainRequest "GET" requestURL) with
  | .transportError => abort (.fatal [.error])
  | .readError _ => abort (.fatal [.text "", .error])
  | .ok body =>
    let subDomains := body
    let subDomains := Replace subDomains "." " " 0
    Run.pure subDomains

/-! ## Function `main` -/

/-- What the two mandatory stages hand to the optional ones. -/
structure Resolved where
  companyID : String
  companyDomain : String
  CEOName : String

/-- Lines 439-451: the company search and the first suggestion. -/
def orgResolve (w : World) (UserQuery : String) : Run (String × String) := do
  let Results ← getOrganizationByName w UserQuery
  match w.parseJSON Results with
  | none => abort (.fatal [.error])
  | some parsed =>
    let parsedResults : Container := some parsed
    let companyDataURL := Children w (Path parsedResults "results.*.attributeForAutoSuggestAsMap")
    let companyInfo ← index companyDataURL 0
    let companyID := (Path companyInfo "id").String
    let companyID := Replace companyID "\"" "" 2
    let companyDomain ← assertString (Data (Path companyInfo "primary_domain"))
    Run.pure (companyID, companyDomain)

/-- Lines 453-481: the company profile and the report of the company. -/
def orgDetail (cfg : Config) (w : World) (companyID companyDomain : String) : Run String := do
  let companyDetails ← getOrganizationDetails cfg w companyID
  match w.parseJSON companyDetails with
  | none => abort (.fatal [.error])
  | some parsed =>
    let parsedResults : Container := some parsed
    let CEOFirstName := Data (Path parsedResults "ceo.current_ceo.first_name")
    let CEOLastName := Data (Path parsedResults "ceo.current_ceo.last_name")
    let first ← assertString CEOFirstName
    let last ← assertString CEOLastName
    let CEOName := first ++ " " ++ last
    let industrySector := Path parsedResults "company_info.company_details.industrySector.sector_name"
    let companyFounded := Data (Path parsedResults "company_info.company_details.founded")
    let companyAddressCountry := Data (Path parsedResults "company_info.company_details.hqAddress.country")
    let companyAddressState := Data (Path parsedResults "company_info.company_details.hqAddress.state")
    let companyAddressCity := Data (Path parsedResults "company_info.company_details.hqAddress.city")
    let companyAddressStreet1 := Data (Path parsedResults "company_info.company_details.hqAddress.street1")
    let companyAddressStreet2 := Data (Path parsedResults "company_info.company_details.hqAddress.street2")
    let street1 ← assertString companyAddressStreet1
    let street2 ← assertString companyAddressStreet2
    let city ← assertString companyAddressCity
    let state ← assertString companyAddressState
    let companyFullAddress := street1 ++ " " ++ street2 ++ " " ++ city ++ " " ++ state
    let companyName := (Path parsedResults "company_info.company_details.name").String
    let companyName := Replace companyName "\"" "" 4
    emit (.redPrintln "\nCompany Details\n")
    emit (.println [.text "Name:", .text companyName])
    emit (.println [.text "CEO:", .text CEOName])
    emit (.println [.text "Founded:", .value companyFounded])
    emit (.println [.text "Company TLD:", .text companyDomain])
    emit (.println [.text "Industry Sector:", .container industrySector])
    emit (.println [.text "Address:", .text companyFullAddress])
    emit (.println [.text "Country:", .value companyAddressCountry])
    Run.pure CEOName

/-- Lines 491-494: one people-search result as it is printed. -/
def identityResult (c : Container) : String :=
  ["\"", "\\", "\x7b", "\x7d"].foldl (fun acc r => Replace acc r " " (-1)) c.String

/-- Lines 484-502: the people search on the CEO. -/
def ceoDoxx (w : World) (CEOName : String) : Run Unit := do
  let CEODoxx ← getPerson w "name" (Replace CEOName " " "-" (-1)) "XX"
  let ceoDetails : Container := w.parseJSON CEODoxx
  let allResults := Children w (Path ceoDetails "results")
  if allResults.length > 1 then
    emit (.redPrintln "\n*CEO Personal Details: ")
    forEach (fun r =>
      if (identityResult r).length > 0 then
        emit (.println [.text (identityResult r)])
      else
        emit (.println [.text "No results found"])) allResults
  else
    Run.pure ()

/-- Lines 524-529: the body of the loop over the lines of the subdomain
response. -/
def endpointBody (cfg : Config) (w : World) (f : Flags) (line : String) : Run Unit := do
  emit (.cyanPrint "IP: ")
  let ip ← index (Split line ",") 1
  let hostname ← index (Split line ",") 0
  emit (.println [.text ip, .text "\t\t", .text "Hostname:", .text hostname])
  if f.ports then
    let ip ← index (Split line ",") 1
    let _ ← queryShodan cfg w f ip
    Run.pure ()
  else
    Run.pure ()

/-- Lines 515-531: the network perimeter. -/
def perimeter (cfg : Config) (w : World) (f : Flags) (companyDomain : String) : Run Unit := do
  emit (.redPrintln "\nNetwork Perimeter from Dig\n")
  let CompanyDomainEndpoints ← getSubDomains w companyDomain
  let EndpointsList := Split CompanyDomainEndpoints "\n"
  if EndpointsList.length < 2 then
    abort (.fatal [.strings EndpointsList])
  else
    forEach (endpointBody cfg w f) EndpointsList

/-- Lines 439-481: the two mandatory stages. -/
def mandatory (cfg : Config) (w : World) (UserQuery : String) : Run Resolved := do
  let (companyID, companyDomain) ← orgResolve w UserQuery
  let CEOName ← orgDetail cfg w companyID companyDomain
  Run.pure ⟨companyID, companyDomain, CEOName⟩

/-- Lines 483-503: the people search, when asked for. -/
def doxxSection (w : World) (f : Flags) (r : Resolved) : Run Unit :=
  if f.doxx then ceoDoxx w r.CEOName else Run.pure ()

/-- Lines 505-508: the employees, when asked for. -/
def employeesSection (cfg : Config) (w : World) (f : Flags) (r : Resolved) : Run Unit :=
  if f.employees then do
    emit (.redPrintln "\nEmployees:\n")
    let _ ← getEmployees cfg w r.companyDomain
    Run.pure ()
  else Run.pure ()

/-- Lines 510-532: the port flag switches the network flag on, and the network
perimeter runs when the network flag is on. -/
def networkSection (cfg : Config) (w : World) (f : Flags) (r : Resolved) : Run Unit :=
  let flagOrgNetwork := if f.ports then true else f.network
  if flagOrgNetwork then perimeter cfg w f r.companyDomain else Run.pure ()

/-- Lines 483-532: the optional stages, in the order of the source. -/
def optional (cfg : Config) (w : World) (f : Flags) (r : Resolved) : Run Unit :=
  Run.bind (doxxSection w f r) (fun _ =>
    Run.bind (employeesSection cfg w f r) (fun _ => networkSection cfg w f r))

/-- Function `main` (lines 431-536), after `flag.Parse`. -/
def main (cfg : Config) (w : World) (f : Flags) : Run Unit :=
  let UserQuery := f.org
  if f.org.length > 0 then
    Run.bind (mandatory cfg w UserQuery) (optional cfg w f)
  else
    emit .usage

/-- The adapter call an event stands for, if it is one. -/
def callOf : Event → Option Call
  | .call c => some c
  | _ => none

/-- The adapter calls of a trace, in order. -/
def calls (t : List Event) : List Call := t.filterMap callOf

/-! ## The lines of the subdomain response -/

/-- The first comma-separated field of a line. -/
def hostField (line : String) : String := ((Split line ",").get? 0).getD ""

/-- The second comma-separated field of a line. -/
def ipField (line : String) : String := ((Split line ",").get? 1).getD ""

/-- The host an event reports, if it is the line printed at line 525: the pair
of hostname and IP. -/
def hostOf : Event → Option (String × String)
  | .println [.text ip, .text _, .text label, .text hostname] =>
    if label = "Hostname:" then some (hostname, ip) else none
  | _ => none

/-- The hosts a trace reports, in order. -/
def hostsReported (t : List Event) : List (String × String) := t.filterMap hostOf

/-- The argument of a port lookup. -/
def shodanQuery : Call → Option String
  | .queryShodan q => some q
  | _ => none

/-- The arguments of the port lookups of a list of calls, in order. -/
def shodanQueries (cs : List Call) : List String := cs.filterMap shodanQuery

/-- The port lookup of a line, if it is made, comes back. -/
def lookupOk (cfg : Config) (w : World) (f : Flags) (line : String) : Prop :=
  f.ports = true → ∃ v, (queryShodan cfg w f (ipField line)).outcome = .ok v

/-! ## The requests and what the providers answer -/

/-- The request of `getOrganizationByName`. -/
def searchRequest (OrgName : String) : Request :=
  plainRequest "GET" (Replace OwlerSearchURL "QUERY" OrgName 1)

/-- The request of `getOrganizationDetails`. -/
def detailRequest (cfg : Config) (OrgID : String) : Request :=
  ⟨"POST", OwlerDetailsURL, marshal (requestBodyJSON OrgID),
    [("Origin", "https://www.owler.com"), ("User-Agent", cfg.UserAgentString),
     ("Content-Type", "application/json"), ("DNT", "1"), ("Accept", "*/*")]⟩

/-- The request of `getPerson`. -/
def personRequest (queryType query state : String) : Request :=
  plainRequest "GET"
    (Replace (Replace (Replace OSINTBaseURL "QUERYTYPE" queryType 1) "QUERY" query 1) "STATE" state 1)

/-- The request of `getSubDomains`. -/
def subdomainRequest (domain : String) : Request :=
  plainRequest "GET" (Replace "http://api.hackertarget.com/hostsearch/?q=QUERY" "QUERY" domain 1)

/-- The company search for `org` is answered, the answer parses as JSON, and
`suggestions` is the list found at `results.*.attributeForAutoSuggestAsMap`. -/
def SearchGives (w : World) (org : String) (suggestions : List Container) : Prop :=
  ∃ body parsed, w.http (searchRequest org) = .ok body ∧ w.parseJSON body = some parsed ∧
    Children w (Path (some parsed) "results.*.attributeForAutoSuggestAsMap") = suggestions

/-- The company profile asked for `id` is answered and parses as `details`. -/
def DetailGives (cfg : Config) (w : World) (id : String) (details : JSON) : Prop :=
  ∃ body, w.http (detailRequest cfg id) = .ok body ∧ w.parseJSON body = some details

/-- The variable `companyID` of `main` (lines 449-450) for a suggestion. -/
def companyIDOf (info : Container) : String :=
  Replace (Path info "id").String "\"" "" 2

/-- The six fields of the company profile that `main` asserts to be strings
(lines 460 and 468). -/
def DetailStrings (details : JSON) (first last street1 street2 city state : String) : Prop :=
  Data (Path (some details) "ceo.current_ceo.first_name") = .str first ∧
  Data (Path (some details) "ceo.current_ceo.last_name") = .str last ∧
  Data (Path (some details) "company_info.company_details.hqAddress.street1") = .str street1 ∧
  Data (Path (some details) "company_info.company_details.hqAddress.street2") = .str street2 ∧
  Data (Path (some details) "company_info.company_details.hqAddress.city") = .str city ∧
  Data (Path (some details) "company_info.company_details.hqAddress.state") = .str state

/-- The report of the company (lines 473-481). -/
def companyReport (details : JSON) (companyDomain CEOName companyFullAddress : String) :
    List Event :=
  [.redPrintln "\nCompany Details\n",
   .println [.text "Name:",
     .text (Replace (Path (some details) "company_info.company_details.name").String "\"" "" 4)],
   .println [.text "CEO:", .text CEOName],
   .println [.text "Founded:",
     .value (Data (Path (some details) "company_info.company_details.founded"))],
   .println [.text "Company TLD:", .text companyDomain],
   .println [.text "Industry Sector:",
     .container (Path (some details) "company_info.company_details.industrySector.sector_name")],
   .println [.text "Address:", .text companyFullAddress],
   .println [.text "Country:",
     .value (Data (Path (some details) "company_info.company_details.hqAddress.country"))]]

/-! ## What a run says -/

/-- The text `msg` occurs in `s`. -/
def occursIn (msg : List Char) : List Char → Bool
  | [] => msg.isEmpty
  | c :: t => msg.isPrefixOf (c :: t) || occursIn msg t

/-- The argument is a text (or a list of texts) in which `msg` occurs. -/
def Arg.mentions (msg : String) : Arg → Bool
  | .text s => occursIn msg.data s.data
  | .strings xs => xs.any (fun s => occursIn msg.data s.data)
  | _ => false

/-- The event prints a text in which `msg` occurs. -/
def Event.mentions (msg : String) : Event → Bool
  | .println args => args.any (Arg.mentions msg)
  | .redPrintln s => occursIn msg.data s.data
  | .redPrint s => occursIn msg.data s.data
  | .cyanPrint s => occursIn msg.data s.data
  | _ => false

/-- The run reports `msg`: it prints it, or it ends in a `log.Fatal` that logs
it. -/
def Run.reports {α : Type} (msg : String) (r : Run α) : Bool :=
  r.trace.any (Event.mentions msg) ||
    match r.outcome with
    | .error (.fatal args) => args.any (Arg.mentions msg)
    | _ => false

/-! ## Sample providers

Small worlds to run the program in.  The search is for `Acme`; the bodies are
JSON texts and `sampleParse` lists what each of them parses to. -/

/-- A search answer without suggestions. -/
def searchNone : String := "\x7b\"results\":[]\x7d"

/-- A search answer with one suggestion. -/
def searchOne : String :=
  "\x7b\"results\":[\x7b\"attributeForAutoSuggestAsMap\":\x7b\"id\":\"42\",\"primary_domain\":\"acme.example\"\x7d\x7d]\x7d"

/-- A search answer whose suggestion has an empty id and an empty domain. -/
def searchBlank : String :=
  "\x7b\"results\":[\x7b\"attributeForAutoSuggestAsMap\":\x7b\"id\":\"\",\"primary_domain\":\"\"\x7d\x7d]\x7d"

/-- A company profile with the CEO and the four address lines, and without
`founded`, `industrySector` and `hqAddress.country`. -/
def detailFull : String :=
  "\x7b\"ceo\":\x7b\"current_ceo\":\x7b\"first_name\":\"Jane\",\"last_name\":\"Doe\"\x7d\x7d,\"company_info\":\x7b\"company_details\":\x7b\"name\":\"Acme\",\"hqAddress\":\x7b\"street1\":\"1 Main St\",\"street2\":\"\",\"city\":\"Springfield\",\"state\":\"IL\"\x7d\x7d\x7d\x7d"

/-- The same profile without `hqAddress.street2`. -/
def detailNoStreet2 : String :=
  "\x7b\"ceo\":\x7b\"current_ceo\":\x7b\"first_name\":\"Jane\",\"last_name\":\"Doe\"\x7d\x7d,\"company_info\":\x7b\"company_details\":\x7b\"name\":\"Acme\",\"hqAddress\":\x7b\"street1\":\"1 Main St\",\"city\":\"Springfield\",\"state\":\"IL\"\x7d\x7d\x7d\x7d"

/-- An employee directory with one contact. -/
def employeesOne : String :=
  "\x7b\"data\":\x7b\"emails\":[\x7b\"first_name\":\"John\",\"last_name\":\"Roe\",\"position\":\"CTO\",\"value\":\"john@acme.example\"\x7d]\x7d\x7d"

/-- The suggestion of `searchOne` or `searchBlank`. -/
def suggestionJSON (id domain : String) : JSON :=
  .obj [("results", .arr [.obj [("attributeForAutoSuggestAsMap",
    .obj [("id", .str id), ("primary_domain", .str domain)])]])]

/-- The profile of `detailFull` (`street2` given) or `detailNoStreet2`. -/
def detailJSON (street2 : Option String) : JSON :=
  .obj [("ceo", .obj [("current_ceo", .obj [("first_name", .str "Jane"), ("last_name", .str "Doe")])]),
    ("company_info", .obj [("company_details", .obj [("name", .str "Acme"),
      ("hqAddress", .obj ([("street1", .str "1 Main St")] ++
        (match street2 with
          | some s => [("street2", .str s)]
          | none => []) ++
        [("city", .str "Springfield"), ("state", .str "IL")]))])])]

/-- One person found by the people search. -/
def sampleRecord : Record :=
  ⟨"Jane Doe\nAge 50", "1 Main St", "Springfield", "IL", "555-0100"⟩

/-- What the sample bodies parse to; whatever else is no JSON. -/
def sampleParse (s : String) : Option JSON :=
  if s = searchNone then some (.obj [("results", .arr [])])
  else if s = searchOne then some (suggestionJSON "42" "acme.example")
  else if s = searchBlank then some (suggestionJSON "" "")
  else if s = detailFull then some (detailJSON (some ""))
  else if s = detailNoStreet2 then some (detailJSON none)
  else if s = employeesOne then
    some (.obj [("data", .obj [("emails", .arr [.obj [("first_name", .str "John"),
      ("last_name", .str "Roe"), ("position", .str "CTO"), ("value", .str "john@acme.example")]])])])
  else if s = marshal (searchResults []) then some (searchResults [])
  else if s = marshal (searchResults [sampleRecord]) then some (searchResults [sampleRecord])
  else none

/-- A world that answers the search for `Acme` with `search`, the profile
request with `detail`, the subdomain request for `acme.example` with `hosts`,
the people search with a page of the records `people`, the employee search
without key with `employeesOne`, and everything else
with a body that is no JSON. -/
def sampleWorld (search detail hosts : String) (people : List Record) : World where
  http r :=
    if r.url = (searchRequest "Acme").url then .ok search
    else if r.url = OwlerDetailsURL then .ok detail
    else if r.url = (subdomainRequest "acme.example").url then .ok hosts
    else if r.url = (personRequest "name" "Jane-Doe" "XX").url then .ok "<html>people</html>"
    else if r.url = "https://hunter.io/trial/v2/domain-search?limit=10&offset=0&domain=acme.example&format=json"
      then .ok employeesOne
    else .ok "<html>error</html>"
  parseJSON := sampleParse
  records s := if s = "<html>people</html>" then people else []
  rangeOrder kvs := kvs.map Prod.snd

/-- No API keys. -/
def noKeys : Config := ⟨"Mozilla/5.0", "", ""⟩

/-- A Shodan key and nothing else. -/
def shodanKey : Config := ⟨"Mozilla/5.0", "", "key"⟩

/-- The flags `-org Acme` with the given switches. -/
def acmeFlags (network ports employees doxx : Bool) : Flags :=
  ⟨"Acme", network, ports, false, employees, doxx, ""⟩

/-- A page of four record blocks: three with a name, and one in which the
selection `[itemprop=name]` is empty. -/
def fourBlocks : List Record :=
  [⟨"Jane Doe", "1 Main St", "Springfield", "IL", "555-0100"⟩,
   ⟨"Jane A Doe", "2 Oak Ave", "Portland", "OR", "555-0101"⟩,
   ⟨"", "3 Elm Rd", "Austin", "TX", "555-0102"⟩,
   ⟨"Jane B Doe", "4 Pine Ct", "Boston", "MA", "555-0103"⟩]

/-! ## The passive-intelligence fan-out (lines 167-195) -/

def enrichment : String := "https://api.passivetotal.org/v2/enrichment"

def dnsPassive : String := "https://api.passivetotal.org/v2/dns/passive"

def whoisURL : String := "https://api.passivetotal.org/v2/whois"

/-- The package-level variables `userName` and `APIKey` of the PassiveTotal
account, and the value `SetBasicAuth` gives the `Authorization` header for a
user name and a password. -/
structure Account where
  userName : String
  APIKey : String
  basicAuth : String → String → String

/-- Function `queryPassiveTotal` (lines 182-195), as one goroutine runs it: an
error of the transport is not tested and ends in a nil dereference at
`httpResponse.Body`, a body that is no JSON ends the process in `log.Fatal`,
and otherwise the answer is printed and the goroutine reaches
`waitgroup.Done()`. -/
def queryPassiveTotal (acc : Account) (w : World) (endpoint Query : String) : Run Unit :=
  let httpRequest : Request :=
    ⟨"GET", endpoint ++ "?query=" ++ Query, "",
      [("Authorization", acc.basicAuth acc.userName acc.APIKey)]⟩
  Run.bind
    (match w.http httpRequest with
      | .transportError => abort .nilDereference
      | .ok body => Run.pure body
      | .readError got => Run.pure got)
    (fun message =>
      match w.parseJSON message with
      | none => abort (.fatal [.text "Error ", .error])
      | some parsed =>
        let prettyPrint : Container := some parsed
        emit (.println [.text prettyPrint.String]))

/-- Lines 169-178: the goroutines `queryPTAll` starts, one `waitGroup.Add(1)`
and one `go queryPassiveTotal(CurrentURL, &waitGroup, Query)` per element of
`URLS`, as the pairs of endpoint and query they are started with. -/
def goroutines (Query : String) : List (String × String) :=
  let URLS := [dnsPassive, enrichment, whoisURL]
  URLS.map (fun CurrentURL => (CurrentURL, Query))

/-- Function `queryPTAll` (lines 167-180).  A goroutine shows at most once to
the outside, when it prints its answer or ends the process, so a run is fixed
by the order in which the started goroutines get there: `schedule` turns the
list of the goroutines in the order of their start into that order.  A
goroutine that ends the process ends the run, the later ones included, and
`waitGroup.Wait()` returns once every goroutine has reached `Done`. -/
def queryPTAll (acc : Account) (w : World)
    (schedule : List (String × String) → List (String × String)) (Query : String) : Run Unit :=
  forEach (fun g => queryPassiveTotal acc w g.1 g.2) (schedule (goroutines Query))

/-- An account; the header value is the one of `user` and `key`. -/
def sampleAccount : Account := ⟨"user", "key", fun _ _ => "Basic dXNlcjprZXk="⟩

/-- A world in which the enrichment endpoint answers the query `example.com`
with an error page and every other request is answered with `{}`. -/
def passiveWorld : World where
  http r :=
    if r.url = enrichment ++ "?query=example.com" then .ok "<html>error</html>"
    else .ok "\x7b\x7d"
  parseJSON s := if s = "\x7b\x7d" then some (.obj []) else none
  records _ := []
  rangeOrder kvs := kvs.map Prod.snd

/-- The schedule that lets the enrichment goroutine get there first. -/
def enrichmentFirst (started : List (String × String)) : List (String × String) :=
  started.filter (fun g => g.1 = enrichment) ++ started.filter (fun g => g.1 ≠ enrichment)

set_option maxRecDepth 100000

/-! ## Runs: sequencing -/

theorem bind_eq {α β : Type} (m : Run α) (f : α → Run β) : (m >>= f) = Run.bind m f := rfl

theorem pure_eq {α : Type} (a : α) : (pure a : Run α) = Run.pure a := rfl

theorem Run.bind_of_ok {α β : Type} {m : Run α} {a : α} (h : m.outcome = .ok a)
    (f : α → Run β) : Run.bind m f = ⟨m.trace ++ (f a).trace, (f a).outcome⟩ := by
  simp [Run.bind, h]

theorem Run.bind_of_error {α β : Type} {m : Run α} {e : Failure} (h : m.outcome = .error e)
    (f : α → Run β) : Run.bind m f = ⟨m.trace, .error e⟩ := by
  simp [Run.bind, h]

theorem Run.bind_outcome_ok {α β : Type} {m : Run α} {f : α → Run β} {b : β} :
    (Run.bind m f).outcome = .ok b ↔ ∃ a, m.outcome = .ok a ∧ (f a).outcome = .ok b := by
  cases h : m.outcome with
  | error e => simp [Run.bind, h]
  | ok a => simp [Run.bind, h]

theorem Run.emit_bind {β : Type} (e : Event) (f : Unit → Run β) :
    Run.bind (emit e) f = ⟨e :: (f ()).trace, (f ()).outcome⟩ := by
  simp [Run.bind, emit]

theorem Run.pure_bind {α β : Type} (a : α) (f : α → Run β) :
    Run.bind (Run.pure a) f = f a := by
  simp [Run.bind, Run.pure]

theorem Run.abort_bind {α β : Type} (e : Failure) (f : α → Run β) :
    Run.bind (abort e) f = abort e := by
  simp [Run.bind, abort]

theorem Run.bind_mk_ok {α β : Type} (t : List Event) (a : α) (f : α → Run β) :
    Run.bind ⟨t, .ok a⟩ f = ⟨t ++ (f a).trace, (f a).outcome⟩ := rfl

theorem Run.bind_mk_error {α β : Type} (t : List Event) (e : Failure) (f : α → Run β) :
    Run.bind ⟨t, .error e⟩ f = ⟨t, .error e⟩ := rfl

theorem replaceScan_zero (old new : List Char) (s : List Char) :
    replaceScan old new (some 0) 0 s = s := by
  induction s with
  | nil => simp [replaceScan]
  | cons c t ih => simp [replaceScan, ih]

theorem Replace_zero (s old new : String) : Replace s old new 0 = s := by
  unfold Replace
  by_cases h : old.data = []
  · simp [h, replaceEmpty]
  · simp [h, replaceScan_zero]

theorem getSubDomains_ok (w : World) (domain body : String)
    (h : w.http (plainRequest "GET" (Replace "http://api.hackertarget.com/hostsearch/?q=QUERY" "QUERY" domain 1)) = .ok body) :
    getSubDomains w domain = ⟨[.call (.getSubDomains domain)], .ok body⟩ := by
  simp [getSubDomains, bind_eq, Run.emit_bind, h, Replace_zero, Run.pure]



/-! ## Splitting on one character -/

theorem splitScan_ne_nil (sep : List Char) (skip : Nat) (s : List Char) :
    splitScan sep skip s ≠ [] := by
  induction s generalizing skip with
  | nil => simp [splitScan]
  | cons x t ih =>
    cases skip with
    | succ k => simpa [splitScan] using ih k
    | zero =>
      unfold splitScan
      split
      · simp
      · split <;> simp

theorem splitScan_single_cons_eq (c : Char) (t : List Char) :
    splitScan [c] 0 (c :: t) = [] :: splitScan [c] 0 t := by
  simp [splitScan, List.isPrefixOf]

theorem splitScan_single_cons_ne (c x : Char) (t : List Char) (h : x ≠ c) :
    splitScan [c] 0 (x :: t)
      = (x :: (splitScan [c] 0 t).headD []) :: (splitScan [c] 0 t).tail := by
  have hne := splitScan_ne_nil [c] 0 t
  have hc : ¬ (c = x) := fun e => h e.symm
  cases hs : splitScan [c] 0 t with
  | nil => exact absurd hs hne
  | cons seg rest => simp [splitScan, List.isPrefixOf, hc, hs]

theorem splitScan_single_not_mem (c : Char) (s : List Char) (h : c ∉ s) :
    splitScan [c] 0 s = [s] := by
  induction s with
  | nil => simp [splitScan]
  | cons x t ih =>
    have hx : x ≠ c := fun e => h (by simp [e])
    have ht : c ∉ t := fun m => h (List.mem_cons_of_mem _ m)
    rw [splitScan_single_cons_ne c x t hx, ih ht]
    simp

theorem splitScan_single_append (c : Char) (p t : List Char) (h : c ∉ p) :
    splitScan [c] 0 (p ++ c :: t) = p :: splitScan [c] 0 t := by
  induction p with
  | nil => simpa using splitScan_single_cons_eq c t
  | cons x p ih =>
    have hx : x ≠ c := fun e => h (by simp [e])
    have hp : c ∉ p := fun m => h (List.mem_cons_of_mem _ m)
    rw [List.cons_append, splitScan_single_cons_ne c x _ hx, ih hp]
    simp

theorem mem_split_first (c : Char) (s : List Char) (h : c ∈ s) :
    s = s.takeWhile (fun x => x != c) ++ c :: (s.dropWhile (fun x => x != c)).drop 1 := by
  induction s with
  | nil => simp at h
  | cons x t ih =>
    by_cases hx : x = c
    · subst hx; simp [List.takeWhile, List.dropWhile]
    · have ht : c ∈ t := by
        rcases List.mem_cons.mp h with e | m
        · exact absurd e.symm hx
        · exact m
      have hb : (x != c) = true := by simpa using hx
      simp only [List.takeWhile, List.dropWhile, hb, List.cons_append]
      exact congrArg (List.cons x) (ih ht)

theorem not_mem_takeWhile_ne (c : Char) (s : List Char) :
    c ∉ s.takeWhile (fun x => x != c) := by
  intro h
  have := List.mem_takeWhile_imp h
  simp at this

theorem splitScan_single_length (c : Char) (s : List Char) :
    2 ≤ (splitScan [c] 0 s).length ↔ c ∈ s := by
  constructor
  · intro h
    by_contra hc
    rw [splitScan_single_not_mem c s hc] at h
    simp at h
  · intro h
    have e := mem_split_first c s h
    rw [e, splitScan_single_append c _ _ (not_mem_takeWhile_ne c s)]
    have := splitScan_ne_nil [c] 0 ((s.dropWhile (fun x => x != c)).drop 1)
    cases hs : splitScan [c] 0 ((s.dropWhile (fun x => x != c)).drop 1) with
    | nil => exact absurd hs this
    | cons a b => simp

theorem splitScan_single_head (c : Char) (s : List Char) :
    (splitScan [c] 0 s).head? = some (s.takeWhile (fun x => x != c)) := by
  by_cases h : c ∈ s
  · have e := mem_split_first c s h
    conv_lhs => rw [e, splitScan_single_append c _ _ (not_mem_takeWhile_ne c s)]
    simp
  · rw [splitScan_single_not_mem c s h]
    have : s.takeWhile (fun x => x != c) = s := by
      apply List.takeWhile_eq_self_iff.mpr
      intro x hx
      have : x ≠ c := fun e => h (e ▸ hx)
      simpa using this
    simp [this]

theorem splitScan_single_second (c : Char) (s : List Char) (h : c ∈ s) :
    (splitScan [c] 0 s).get? 1
      = some (((s.dropWhile (fun x => x != c)).drop 1).takeWhile (fun x => x != c)) := by
  have e := mem_split_first c s h
  conv_lhs => rw [e, splitScan_single_append c _ _ (not_mem_takeWhile_ne c s)]
  have := splitScan_single_head c ((s.dropWhile (fun x => x != c)).drop 1)
  cases hs : splitScan [c] 0 ((s.dropWhile (fun x => x != c)).drop 1) with
  | nil => exact absurd hs (splitScan_ne_nil _ _ _)
  | cons a b =>
    rw [hs] at this
    simpa using this

theorem splitScan_single_snoc (c : Char) (s : List Char) :
    splitScan [c] 0 (s ++ [c]) = splitScan [c] 0 s ++ [[]] := by
  induction s with
  | nil => simp [splitScan, List.isPrefixOf]
  | cons x t ih =>
    by_cases hx : x = c
    · subst hx
      rw [List.cons_append, splitScan_single_cons_eq, splitScan_single_cons_eq, ih]
      simp
    · rw [List.cons_append, splitScan_single_cons_ne c x _ hx, splitScan_single_cons_ne c x _ hx, ih]
      cases hs : splitScan [c] 0 t with
      | nil => exact absurd hs (splitScan_ne_nil _ _ _)
      | cons a b => simp



/-! ## The fields of a line -/

theorem Split_comma (line : String) :
    Split line "," = (splitScan [','] 0 line.data).map String.mk := by
  simp [Split]

theorem Split_newline (s : String) :
    Split s "\n" = (splitScan ['\n'] 0 s.data).map String.mk := by
  simp [Split]

theorem Split_comma_get_one_isSome (line : String) :
    1 < (Split line ",").length ↔ ',' ∈ line.data := by
  rw [Split_comma, List.length_map]
  exact splitScan_single_length ',' line.data

theorem Split_comma_get_zero (line : String) :
    (Split line ",").get? 0 = some (String.mk (line.data.takeWhile (fun x => x != ','))) := by
  rw [Split_comma]
  have := splitScan_single_head ',' line.data
  cases hs : splitScan [','] 0 line.data with
  | nil => exact absurd hs (splitScan_ne_nil _ _ _)
  | cons a b =>
    rw [hs] at this
    simp at this
    simp [this]

theorem Split_comma_get_one (line : String) (h : ',' ∈ line.data) :
    (Split line ",").get? 1 = some (String.mk
      (((line.data.dropWhile (fun x => x != ',')).drop 1).takeWhile (fun x => x != ','))) := by
  rw [Split_comma]
  have := splitScan_single_second ',' line.data h
  simp only [List.get?_eq_getElem?] at this ⊢
  rw [List.getElem?_map, this]
  rfl

theorem Split_comma_get_one_none (line : String) (h : ',' ∉ line.data) :
    (Split line ",").get? 1 = none := by
  rw [Split_comma, splitScan_single_not_mem _ _ h]
  rfl


/-! ## The port lookup -/

theorem calls_append (a b : List Event) : calls (a ++ b) = calls a ++ calls b := by
  simp [calls]

theorem hostsReported_append (a b : List Event) :
    hostsReported (a ++ b) = hostsReported a ++ hostsReported b := by
  simp [hostsReported]

theorem shodanQueries_append (a b : List Call) :
    shodanQueries (a ++ b) = shodanQueries a ++ shodanQueries b := by
  simp [shodanQueries]

theorem calls_queryShodan (cfg : Config) (w : World) (f : Flags) (q : String) :
    calls (queryShodan cfg w f q).trace = [.queryShodan q] := by
  unfold queryShodan
  simp only [bind_eq, pure_eq, emit, abort, Run.pure, Run.bind_mk_ok, Run.bind_mk_error]
  by_cases hk : cfg.ShodanAPIKey = ""
  · simp [hk, calls, callOf]
  · simp only [hk, ne_eq, not_false_eq_true, ite_true]
    cases hr : w.http (plainRequest "GET"
        (Replace (Replace ShodanBaseURL "APIKEY" cfg.ShodanAPIKey 1) "QUERY" q 1)) with
    | transportError => simp [calls, callOf, Run.bind_mk_error]
    | ok body =>
      simp only [Run.bind_mk_ok, Run.bind_mk_error]
      cases hp : w.parseJSON body with
      | none => simp [calls, callOf]
      | some parsed =>
        by_cases hb : f.banner = true <;>
          simp [calls, callOf, Run.bind_mk_ok, hb]
    | readError got =>
      simp only [Run.bind_mk_ok, Run.bind_mk_error]
      cases hp : w.parseJSON got with
      | none => simp [calls, callOf]
      | some parsed =>
        by_cases hb : f.banner = true <;>
          simp [calls, callOf, Run.bind_mk_ok, hb]

theorem hostsReported_queryShodan (cfg : Config) (w : World) (f : Flags) (q : String) :
    hostsReported (queryShodan cfg w f q).trace = [] := by
  unfold queryShodan
  simp only [bind_eq, pure_eq, emit, abort, Run.pure, Run.bind_mk_ok, Run.bind_mk_error]
  by_cases hk : cfg.ShodanAPIKey = ""
  · simp [hk, hostsReported, hostOf]
  · simp only [hk, ne_eq, not_false_eq_true, ite_true]
    cases hr : w.http (plainRequest "GET"
        (Replace (Replace ShodanBaseURL "APIKEY" cfg.ShodanAPIKey 1) "QUERY" q 1)) with
    | transportError => simp [hostsReported, hostOf, Run.bind_mk_error]
    | ok body =>
      simp only [Run.bind_mk_ok, Run.bind_mk_error]
      cases hp : w.parseJSON body with
      | none => simp [hostsReported, hostOf]
      | some parsed =>
        by_cases hb : f.banner = true <;>
          simp [hostsReported, hostOf, Run.bind_mk_ok, hb]
    | readError got =>
      simp only [Run.bind_mk_ok, Run.bind_mk_error]
      cases hp : w.parseJSON got with
      | none => simp [hostsReported, hostOf]
      | some parsed =>
        by_cases hb : f.banner = true <;>
          simp [hostsReported, hostOf, Run.bind_mk_ok, hb]

/-! ## The loop over the lines -/

theorem ipField_eq (line : String) (h : ',' ∈ line.data) :
    (Split line ",").get? 1 = some (ipField line) := by
  unfold ipField
  rw [Split_comma_get_one line h]
  rfl

theorem hostField_eq (line : String) :
    (Split line ",").get? 0 = some (hostField line) := by
  unfold hostField
  rw [Split_comma_get_zero line]
  rfl

theorem endpointBody_no_comma (cfg : Config) (w : World) (f : Flags) (line : String)
    (h : ',' ∉ line.data) :
    endpointBody cfg w f line = ⟨[.cyanPrint "IP: "], .error .indexOutOfRange⟩ := by
  unfold endpointBody
  simp only [bind_eq, pure_eq, emit, abort, Run.pure, index, Run.bind_mk_ok, Run.bind_mk_error,
    Split_comma_get_one_none line h]
  rfl

theorem endpointBody_comma (cfg : Config) (w : World) (f : Flags) (line : String)
    (h : ',' ∈ line.data) :
    endpointBody cfg w f line =
      Run.bind ⟨[.cyanPrint "IP: ", .println [.text (ipField line), .text "\t\t",
          .text "Hostname:", .text (hostField line)]], .ok ()⟩
        (fun _ => if f.ports = true then
            Run.bind (queryShodan cfg w f (ipField line)) (fun _ => Run.pure ())
          else Run.pure ()) := by
  unfold endpointBody
  simp only [bind_eq, pure_eq, emit, abort, Run.pure, index, Run.bind_mk_ok, Run.bind_mk_error,
    ipField_eq line h, hostField_eq line]
  by_cases hp : f.ports = true <;> simp [hp, Run.bind_mk_ok]

theorem endpointBody_hosts (cfg : Config) (w : World) (f : Flags) (line : String)
    (h : ',' ∈ line.data) :
    hostsReported (endpointBody cfg w f line).trace = [(hostField line, ipField line)] := by
  rw [endpointBody_comma cfg w f line h, Run.bind_mk_ok]
  simp only [hostsReported_append]
  by_cases hp : f.ports = true
  · simp only [hp, ite_true]
    cases ho : (queryShodan cfg w f (ipField line)).outcome with
    | error e =>
      rw [Run.bind_of_error ho]
      simp [hostsReported_queryShodan]
      simp [hostsReported, hostOf]
    | ok v =>
      rw [Run.bind_of_ok ho]
      simp [hostsReported_queryShodan, hostsReported_append, Run.pure]
      simp [hostsReported, hostOf]
  · simp [hp, Run.pure]
    simp [hostsReported, hostOf]

theorem endpointBody_calls (cfg : Config) (w : World) (f : Flags) (line : String)
    (h : ',' ∈ line.data) :
    calls (endpointBody cfg w f line).trace
      = if f.ports = true then [.queryShodan (ipField line)] else [] := by
  rw [endpointBody_comma cfg w f line h, Run.bind_mk_ok]
  simp only [calls_append]
  by_cases hp : f.ports = true
  · simp only [hp, ite_true]
    cases ho : (queryShodan cfg w f (ipField line)).outcome with
    | error e =>
      rw [Run.bind_of_error ho]
      simp [calls_queryShodan]
      simp [calls, callOf]
    | ok v =>
      rw [Run.bind_of_ok ho]
      simp [calls_queryShodan, calls_append, Run.pure]
      simp [calls, callOf]
  · simp [hp, Run.pure]
    simp [calls, callOf]

theorem endpointBody_ok_iff (cfg : Config) (w : World) (f : Flags) (line : String) :
    (endpointBody cfg w f line).outcome = .ok () ↔ ',' ∈ line.data ∧ lookupOk cfg w f line := by
  by_cases h : ',' ∈ line.data
  · rw [endpointBody_comma cfg w f line h, Run.bind_mk_ok]
    unfold lookupOk
    by_cases hp : f.ports = true
    · simp only [hp, ite_true, h, true_and, forall_const]
      cases ho : (queryShodan cfg w f (ipField line)).outcome with
      | error e => rw [Run.bind_of_error ho]; simp
      | ok v => rw [Run.bind_of_ok ho]; simp [Run.pure]
    · simp [hp, h, Run.pure]
  · rw [endpointBody_no_comma cfg w f line h]
    simp [h]

theorem forEach_ok_iff {α : Type} (body : α → Run Unit) (xs : List α) :
    (forEach body xs).outcome = .ok () ↔ ∀ x ∈ xs, (body x).outcome = .ok () := by
  induction xs with
  | nil => simp [forEach, Run.pure]
  | cons x rest ih =>
    simp only [forEach, Run.bind_outcome_ok, ih, List.mem_cons, forall_eq_or_imp]
    constructor
    · rintro ⟨_, h1, h2⟩; exact ⟨h1, h2⟩
    · rintro ⟨h1, h2⟩; exact ⟨(), h1, h2⟩

theorem forEach_trace_of_ok {α : Type} (body : α → Run Unit) (xs : List α)
    (h : ∀ x ∈ xs, (body x).outcome = .ok ()) :
    (forEach body xs).trace = (xs.map (fun x => (body x).trace)).flatten := by
  induction xs with
  | nil => simp [forEach, Run.pure]
  | cons x rest ih =>
    have hx : (body x).outcome = .ok () := h x (by simp)
    have hr : ∀ y ∈ rest, (body y).outcome = .ok () := fun y hy => h y (by simp [hy])
    simp only [forEach, Run.bind_of_ok hx, ih hr, List.map_cons, List.flatten_cons]

theorem forEach_fail_first {α : Type} (body : α → Run Unit) (pre post : List α) (bad : α)
    (e : Failure) (h : ∀ x ∈ pre, (body x).outcome = .ok ()) (hb : (body bad).outcome = .error e) :
    forEach body (pre ++ bad :: post)
      = ⟨(pre.map (fun x => (body x).trace)).flatten ++ (body bad).trace, .error e⟩ := by
  induction pre with
  | nil => simp [forEach, Run.bind_of_error hb]
  | cons x rest ih =>
    have hx : (body x).outcome = .ok () := h x (by simp)
    have hr : ∀ y ∈ rest, (body y).outcome = .ok () := fun y hy => h y (by simp [hy])
    rw [List.cons_append]
    show Run.bind (body x) (fun _ => forEach body (rest ++ bad :: post)) = _
    rw [Run.bind_of_ok hx, ih hr]
    simp

theorem hostsReported_flatten (cfg : Config) (w : World) (f : Flags) (ls : List String)
    (h : ∀ l ∈ ls, ',' ∈ l.data) :
    hostsReported ((ls.map (fun l => (endpointBody cfg w f l).trace)).flatten)
      = ls.map (fun l => (hostField l, ipField l)) := by
  induction ls with
  | nil => simp [hostsReported]
  | cons l rest ih =>
    have hl : ',' ∈ l.data := h l (by simp)
    have hr : ∀ y ∈ rest, ',' ∈ y.data := fun y hy => h y (by simp [hy])
    simp only [List.map_cons, List.flatten_cons, hostsReported_append, ih hr,
      endpointBody_hosts cfg w f l hl, List.singleton_append]

theorem calls_flatten (cfg : Config) (w : World) (f : Flags) (ls : List String)
    (h : ∀ l ∈ ls, ',' ∈ l.data) :
    calls ((ls.map (fun l => (endpointBody cfg w f l).trace)).flatten)
      = if f.ports = true then ls.map (fun l => Call.queryShodan (ipField l)) else [] := by
  induction ls with
  | nil => simp [calls]
  | cons l rest ih =>
    have hl : ',' ∈ l.data := h l (by simp)
    have hr : ∀ y ∈ rest, ',' ∈ y.data := fun y hy => h y (by simp [hy])
    simp only [List.map_cons, List.flatten_cons, calls_append, ih hr,
      endpointBody_calls cfg w f l hl]
    by_cases hp : f.ports = true <;> simp [hp]

/-! ## The mandatory stages -/

theorem index_zero_ok {α : Type} (xs : List α) (x : α) :
    (index xs 0).outcome = .ok x ↔ ∃ rest, xs = x :: rest := by
  cases xs with
  | nil => simp [index, abort]
  | cons y ys => simp [index, Run.pure]

theorem assertString_ok (v : JSON) (s : String) :
    (assertString v).outcome = .ok s ↔ v = .str s := by
  cases v <;> simp [assertString, abort, Run.pure]

theorem getOrganizationByName_of (w : World) (org body : String)
    (h : w.http (searchRequest org) = .ok body) :
    getOrganizationByName w org = ⟨[.call (.getOrganizationByName org)], .ok body⟩ := by
  unfold searchRequest at h
  simp [getOrganizationByName, bind_eq, emit, Run.bind_mk_ok, h, Run.pure]

theorem getOrganizationByName_inv (w : World) (org body : String)
    (h : (getOrganizationByName w org).outcome = .ok body) :
    w.http (searchRequest org) = .ok body := by
  unfold searchRequest
  unfold getOrganizationByName at h
  simp only [bind_eq, emit, Run.bind_mk_ok] at h
  cases hr : w.http (plainRequest "GET" (Replace OwlerSearchURL "QUERY" org 1)) with
  | transportError => simp [hr, abort] at h
  | readError got => simp [hr, abort] at h
  | ok b => simp [hr, Run.pure] at h; simp [h]

theorem getOrganizationDetails_of (cfg : Config) (w : World) (id body : String)
    (h : w.http (detailRequest cfg id) = .ok body) :
    getOrganizationDetails cfg w id = ⟨[.call (.getOrganizationDetails id)], .ok body⟩ := by
  unfold detailRequest at h
  simp [getOrganizationDetails, bind_eq, emit, Run.bind_mk_ok, h, Run.pure]

theorem getOrganizationDetails_inv (cfg : Config) (w : World) (id body : String)
    (h : (getOrganizationDetails cfg w id).outcome = .ok body) :
    w.http (detailRequest cfg id) = .ok body := by
  unfold getOrganizationDetails at h
  simp only [bind_eq, emit, Run.bind_mk_ok] at h
  cases hr : w.http (detailRequest cfg id) with
  | transportError => unfold detailRequest at hr; simp [hr, abort] at h
  | readError got => unfold detailRequest at hr; simp [hr, abort] at h
  | ok b => unfold detailRequest at hr; simp [hr, Run.pure] at h; simp [h]

theorem orgResolve_of (w : World) (org : String) (info : Container) (rest : List Container)
    (domain : String) (hs : SearchGives w org (info :: rest))
    (hd : Data (Path info "primary_domain") = .str domain) :
    orgResolve w org = ⟨[.call (.getOrganizationByName org)], .ok (companyIDOf info, domain)⟩ := by
  obtain ⟨body, parsed, hb, hp, hc⟩ := hs
  unfold orgResolve
  simp only [bind_eq, getOrganizationByName_of w org body hb, Run.bind_mk_ok, hp, hc, index,
    List.get?, Run.pure, hd, assertString, companyIDOf]
  simp

theorem orgResolve_inv (w : World) (org id domain : String)
    (h : (orgResolve w org).outcome = .ok (id, domain)) :
    ∃ info rest, SearchGives w org (info :: rest) ∧
      Data (Path info "primary_domain") = .str domain ∧ id = companyIDOf info := by
  unfold orgResolve at h
  simp only [bind_eq] at h
  obtain ⟨body, hb, h⟩ := Run.bind_outcome_ok.mp h
  have hb := getOrganizationByName_inv w org body hb
  cases hp : w.parseJSON body with
  | none => simp [hp, abort] at h
  | some parsed =>
    simp only [hp] at h
    obtain ⟨info, hi, h⟩ := Run.bind_outcome_ok.mp h
    obtain ⟨rest, hi⟩ := (index_zero_ok _ _).mp hi
    obtain ⟨d, hd, h⟩ := Run.bind_outcome_ok.mp h
    have hd := (assertString_ok _ _).mp hd
    simp [Run.pure] at h
    refine ⟨info, rest, ⟨body, parsed, hb, hp, hi⟩, ?_, ?_⟩
    · rw [hd, h.2]
    · rw [← h.1]; rfl

theorem orgDetail_of (cfg : Config) (w : World) (id domain : String) (details : JSON)
    (first last street1 street2 city state : String)
    (hd : DetailGives cfg w id details)
    (hs : DetailStrings details first last street1 street2 city state) :
    orgDetail cfg w id domain =
      ⟨.call (.getOrganizationDetails id) :: companyReport details domain (first ++ " " ++ last)
          (street1 ++ " " ++ street2 ++ " " ++ city ++ " " ++ state),
        .ok (first ++ " " ++ last)⟩ := by
  obtain ⟨body, hb, hp⟩ := hd
  obtain ⟨h1, h2, h3, h4, h5, h6⟩ := hs
  unfold orgDetail
  simp only [bind_eq, getOrganizationDetails_of cfg w id body hb, Run.bind_mk_ok, hp,
    h1, h2, h3, h4, h5, h6, assertString, Run.pure, emit, companyReport]
  simp

theorem orgDetail_inv (cfg : Config) (w : World) (id domain ceo : String)
    (h : (orgDetail cfg w id domain).outcome = .ok ceo) :
    ∃ details first last street1 street2 city state, DetailGives cfg w id details ∧
      DetailStrings details first last street1 street2 city state ∧
      ceo = first ++ " " ++ last := by
  unfold orgDetail at h
  simp only [bind_eq] at h
  obtain ⟨body, hb, h⟩ := Run.bind_outcome_ok.mp h
  have hb := getOrganizationDetails_inv cfg w id body hb
  cases hp : w.parseJSON body with
  | none => simp [hp, abort] at h
  | some parsed =>
    simp only [hp] at h
    obtain ⟨first, h1, h⟩ := Run.bind_outcome_ok.mp h
    obtain ⟨last, h2, h⟩ := Run.bind_outcome_ok.mp h
    obtain ⟨s1, h3, h⟩ := Run.bind_outcome_ok.mp h
    obtain ⟨s2, h4, h⟩ := Run.bind_outcome_ok.mp h
    obtain ⟨city, h5, h⟩ := Run.bind_outcome_ok.mp h
    obtain ⟨state, h6, h⟩ := Run.bind_outcome_ok.mp h
    simp [emit, Run.bind_mk_ok, Run.pure] at h
    exact ⟨parsed, first, last, s1, s2, city, state, ⟨body, hb, hp⟩,
      ⟨(assertString_ok _ _).mp h1, (assertString_ok _ _).mp h2, (assertString_ok _ _).mp h3,
        (assertString_ok _ _).mp h4, (assertString_ok _ _).mp h5, (assertString_ok _ _).mp h6⟩,
      h.symm⟩

theorem mandatory_of (cfg : Config) (w : World) (org : String) (info : Container)
    (rest : List Container) (domain : String) (details : JSON)
    (first last street1 street2 city state : String)
    (hs : SearchGives w org (info :: rest))
    (hdom : Data (Path info "primary_domain") = .str domain)
    (hd : DetailGives cfg w (companyIDOf info) details)
    (hstr : DetailStrings details first last street1 street2 city state) :
    mandatory cfg w org =
      ⟨.call (.getOrganizationByName org) :: .call (.getOrganizationDetails (companyIDOf info)) ::
          companyReport details domain (first ++ " " ++ last)
            (street1 ++ " " ++ street2 ++ " " ++ city ++ " " ++ state),
        .ok ⟨companyIDOf info, domain, first ++ " " ++ last⟩⟩ := by
  unfold mandatory
  simp only [bind_eq, orgResolve_of w org info rest domain hs hdom, Run.bind_mk_ok,
    orgDetail_of cfg w _ domain details first last street1 street2 city state hd hstr, Run.pure]
  simp

theorem mandatory_inv (cfg : Config) (w : World) (org : String) (r : Resolved)
    (h : (mandatory cfg w org).outcome = .ok r) :
    ∃ info rest details first last street1 street2 city state,
      SearchGives w org (info :: rest) ∧
      Data (Path info "primary_domain") = .str r.companyDomain ∧
      r.companyID = companyIDOf info ∧
      DetailGives cfg w (companyIDOf info) details ∧
      DetailStrings details first last street1 street2 city state ∧
      r.CEOName = first ++ " " ++ last := by
  unfold mandatory at h
  simp only [bind_eq] at h
  obtain ⟨⟨id, domain⟩, h1, h⟩ := Run.bind_outcome_ok.mp h
  obtain ⟨info, rest, hs, hdom, hid⟩ := orgResolve_inv w org id domain h1
  simp only at h
  obtain ⟨ceo, h2, h⟩ := Run.bind_outcome_ok.mp h
  obtain ⟨details, first, last, s1, s2, city, state, hd, hstr, hceo⟩ :=
    orgDetail_inv cfg w id domain ceo h2
  simp [Run.pure] at h
  subst h
  subst hid
  exact ⟨info, rest, details, first, last, s1, s2, city, state, hs, hdom, rfl, hd, hstr, hceo⟩

/-! ## C1: a search without suggestions -/

theorem orgResolve_none (w : World) (org : String) (hs : SearchGives w org []) :
    orgResolve w org = ⟨[.call (.getOrganizationByName org)], .error .indexOutOfRange⟩ := by
  obtain ⟨body, parsed, hb, hp, hc⟩ := hs
  unfold orgResolve
  simp only [bind_eq, getOrganizationByName_of w org body hb, Run.bind_mk_ok, hp, hc, index,
    List.get?, abort, Run.bind_mk_error]
  simp

/-- C1 (amended): for every non-empty organization name whose company search is
answered with JSON that holds no suggestion, `main` calls
`getOrganizationByName` and nothing else, prints nothing (so no
"no organization found" either) and ends at `companyDataURL[0]` with an index
out of range. -/
theorem main_no_suggestion (cfg : Config) (w : World) (f : Flags) (horg : 0 < f.org.length)
    (hs : SearchGives w f.org []) :
    main cfg w f = ⟨[.call (.getOrganizationByName f.org)], .error .indexOutOfRange⟩ ∧
      (main cfg w f).reports "no organization found" = false := by
  have h : main cfg w f = ⟨[.call (.getOrganizationByName f.org)], .error .indexOutOfRange⟩ := by
    unfold main mandatory
    simp only [horg, gt_iff_lt, ite_true, bind_eq, orgResolve_none w f.org hs, Run.bind_mk_error]
  refine ⟨h, ?_⟩
  rw [h]
  simp [Run.reports, Event.mentions]

theorem main_no_suggestion_witness :
    0 < (acmeFlags true true true true).org.length ∧
      SearchGives (sampleWorld searchNone detailFull "" []) (acmeFlags true true true true).org [] ∧
      main noKeys (sampleWorld searchNone detailFull "" []) (acmeFlags true true true true)
        = ⟨[.call (.getOrganizationByName "Acme")], .error .indexOutOfRange⟩ :=
  ⟨by decide, ⟨searchNone, .obj [("results", .arr [])], rfl, rfl, rfl⟩,
    (main_no_suggestion noKeys (sampleWorld searchNone detailFull "" []) (acmeFlags true true true true)
      (by decide) ⟨searchNone, .obj [("results", .arr [])], rfl, rfl, rfl⟩).1⟩

/-- C1 as stated fails: the search for `Acme` is answered with
`{"results":[]}`, and the run ends in a panic without reporting
"no organization found". -/
theorem no_suggestion_not_reported :
    SearchGives (sampleWorld searchNone detailFull "" []) "Acme" [] ∧
      (main noKeys (sampleWorld searchNone detailFull "" []) (acmeFlags false false false false)).reports
        "no organization found" = false ∧
      (main noKeys (sampleWorld searchNone detailFull "" []) (acmeFlags false false false false)).outcome
        = .error .indexOutOfRange :=
  ⟨⟨searchNone, .obj [("results", .arr [])], rfl, rfl, rfl⟩, by decide, rfl⟩

/-! ## The calls of the optional stages -/

theorem calls_nil : calls [] = [] := rfl

theorem calls_cons_call (c : Call) (t : List Event) : calls (.call c :: t) = c :: calls t := rfl

theorem calls_cons_println (a : List Arg) (t : List Event) : calls (.println a :: t) = calls t :=
  rfl

theorem calls_cons_redPrintln (s : String) (t : List Event) :
    calls (.redPrintln s :: t) = calls t := rfl

theorem calls_bind_of_none {α β : Type} (m : Run α) (f : α → Run β)
    (hf : ∀ a, calls (f a).trace = []) : calls (Run.bind m f).trace = calls m.trace := by
  cases h : m.outcome with
  | error e => rw [Run.bind_of_error h]
  | ok a => rw [Run.bind_of_ok h]; simp [calls_append, hf a]

theorem forEach_no_calls {α : Type} (body : α → Run Unit) (xs : List α)
    (h : ∀ x, calls (body x).trace = []) : calls (forEach body xs).trace = [] := by
  induction xs with
  | nil => simp [forEach, Run.pure, calls_nil]
  | cons x rest ih =>
    show calls (Run.bind (body x) (fun _ => forEach body rest)).trace = []
    rw [calls_bind_of_none _ _ (fun _ => ih), h x]

theorem calls_getPerson (w : World) (queryType query state : String) :
    calls (getPerson w queryType query state).trace = [.getPerson queryType query state] := by
  unfold getPerson
  simp only [bind_eq, emit, Run.bind_mk_ok]
  cases w.http (plainRequest "GET" (Replace (Replace (Replace OSINTBaseURL "QUERYTYPE" queryType 1)
      "QUERY" query 1) "STATE" state 1)) <;>
    simp [abort, Run.pure, Run.bind_mk_ok, calls, callOf]

theorem calls_ceoDoxx (w : World) (ceo : String) :
    calls (ceoDoxx w ceo).trace = [.getPerson "name" (Replace ceo " " "-" (-1)) "XX"] := by
  unfold ceoDoxx
  simp only [bind_eq]
  rw [calls_bind_of_none, calls_getPerson]
  intro a
  split
  · simp only [emit, Run.bind_mk_ok, List.singleton_append, calls_cons_redPrintln]
    apply forEach_no_calls
    intro r
    split <;> rfl
  · rfl

theorem calls_getEmployees (cfg : Config) (w : World) (domain : String) :
    calls (getEmployees cfg w domain).trace = [.getEmployees domain] := by
  unfold getEmployees
  simp only [bind_eq, emit, Run.bind_mk_ok, List.singleton_append, calls_cons_call]
  refine congrArg (List.cons _) ?_
  split <;>
  · rw [calls_bind_of_none]
    · rfl
    · intro message
      split
      · rfl
      · split
        · rw [calls_bind_of_none]
          · apply forEach_no_calls
            intro r
            rfl
          · intro _
            rfl
        · rfl

theorem calls_doxxSection (w : World) (f : Flags) (r : Resolved) :
    calls (doxxSection w f r).trace
      = if f.doxx = true then [.getPerson "name" (Replace r.CEOName " " "-" (-1)) "XX"] else [] := by
  unfold doxxSection
  split
  · exact calls_ceoDoxx w r.CEOName
  · rfl

theorem calls_employeesSection (cfg : Config) (w : World) (f : Flags) (r : Resolved) :
    calls (employeesSection cfg w f r).trace
      = if f.employees = true then [.getEmployees r.companyDomain] else [] := by
  unfold employeesSection
  split
  · simp only [bind_eq, emit, Run.bind_mk_ok, List.singleton_append, calls_cons_redPrintln]
    rw [calls_bind_of_none]
    · exact calls_getEmployees cfg w r.companyDomain
    · intro _
      rfl
  · rfl

/-! ## The network perimeter -/

theorem getSubDomains_of (w : World) (domain body : String)
    (h : w.http (subdomainRequest domain) = .ok body) :
    getSubDomains w domain = ⟨[.call (.getSubDomains domain)], .ok body⟩ :=
  getSubDomains_ok w domain body h

theorem getSubDomains_inv (w : World) (domain body : String)
    (h : (getSubDomains w domain).outcome = .ok body) :
    w.http (subdomainRequest domain) = .ok body := by
  unfold getSubDomains at h
  simp only [bind_eq, emit, Run.bind_mk_ok] at h
  cases hr : w.http (subdomainRequest domain) with
  | transportError => unfold subdomainRequest at hr; simp [hr, abort] at h
  | readError got => unfold subdomainRequest at hr; simp [hr, abort] at h
  | ok b =>
    unfold subdomainRequest at hr
    simp [hr, Run.pure, Replace_zero] at h
    simp [h]

theorem calls_getSubDomains (w : World) (domain : String) :
    calls (getSubDomains w domain).trace = [.getSubDomains domain] := by
  unfold getSubDomains
  simp only [bind_eq, emit, Run.bind_mk_ok]
  cases w.http (plainRequest "GET"
      (Replace "http://api.hackertarget.com/hostsearch/?q=QUERY" "QUERY" domain 1)) <;>
    simp [abort, Run.pure, calls, callOf]

theorem perimeter_of (cfg : Config) (w : World) (f : Flags) (domain body : String)
    (h : w.http (subdomainRequest domain) = .ok body) :
    perimeter cfg w f domain =
      Run.bind ⟨[.redPrintln "\nNetwork Perimeter from Dig\n", .call (.getSubDomains domain)], .ok ()⟩
        (fun _ => if (Split body "\n").length < 2 then abort (.fatal [.strings (Split body "\n")])
          else forEach (endpointBody cfg w f) (Split body "\n")) := by
  unfold perimeter
  simp only [bind_eq, emit, Run.bind_mk_ok, getSubDomains_of w domain body h]
  simp

theorem perimeter_inv (cfg : Config) (w : World) (f : Flags) (domain : String)
    (h : (perimeter cfg w f domain).outcome = .ok ()) :
    ∃ body, w.http (subdomainRequest domain) = .ok body ∧ 2 ≤ (Split body "\n").length ∧
      ∀ l ∈ Split body "\n", ',' ∈ l.data ∧ lookupOk cfg w f l := by
  have h0 := h
  unfold perimeter at h
  simp only [bind_eq, emit, Run.bind_mk_ok] at h
  obtain ⟨body, hb, h⟩ := Run.bind_outcome_ok.mp h
  have hb := getSubDomains_inv w domain body hb
  refine ⟨body, hb, ?_⟩
  by_cases hl : (Split body "\n").length < 2
  · simp [hl, abort] at h
  · simp only [hl, ite_false] at h
    refine ⟨by omega, ?_⟩
    intro l hm
    exact (endpointBody_ok_iff cfg w f l).mp ((forEach_ok_iff _ _).mp h l hm)

theorem perimeter_ok_trace (cfg : Config) (w : World) (f : Flags) (domain body : String)
    (h : w.http (subdomainRequest domain) = .ok body) (hl : 2 ≤ (Split body "\n").length)
    (hall : ∀ l ∈ Split body "\n", ',' ∈ l.data ∧ lookupOk cfg w f l) :
    (perimeter cfg w f domain).outcome = .ok () ∧
      calls (perimeter cfg w f domain).trace = .getSubDomains domain ::
        (if f.ports = true then (Split body "\n").map (fun l => Call.queryShodan (ipField l))
          else []) ∧
      hostsReported (perimeter cfg w f domain).trace
        = (Split body "\n").map (fun l => (hostField l, ipField l)) := by
  have hok : ∀ l ∈ Split body "\n", (endpointBody cfg w f l).outcome = .ok () :=
    fun l hm => (endpointBody_ok_iff cfg w f l).mpr (hall l hm)
  have hcomma : ∀ l ∈ Split body "\n", ',' ∈ l.data := fun l hm => (hall l hm).1
  have hlt : ¬ (Split body "\n").length < 2 := by omega
  rw [perimeter_of cfg w f domain body h, Run.bind_mk_ok]
  simp only [hlt, ite_false, forEach_trace_of_ok _ _ hok, calls_append, hostsReported_append,
    calls_flatten cfg w f _ hcomma, hostsReported_flatten cfg w f _ hcomma]
  refine ⟨(forEach_ok_iff _ _).mpr hok, ?_, ?_⟩
  · rfl
  · rfl

/-! ## The run of `main` after the mandatory stages -/

theorem main_of_mandatory (cfg : Config) (w : World) (f : Flags) (r : Resolved)
    (horg : 0 < f.org.length) (hm : (mandatory cfg w f.org).outcome = .ok r) :
    main cfg w f = ⟨(mandatory cfg w f.org).trace ++ (optional cfg w f r).trace,
      (optional cfg w f r).outcome⟩ := by
  unfold main
  simp only [horg, gt_iff_lt, ite_true]
  exact Run.bind_of_ok hm _

theorem optional_of (cfg : Config) (w : World) (f : Flags) (r : Resolved)
    (hd : (doxxSection w f r).outcome = .ok ())
    (he : (employeesSection cfg w f r).outcome = .ok ()) :
    optional cfg w f r = ⟨(doxxSection w f r).trace ++
        ((employeesSection cfg w f r).trace ++ (networkSection cfg w f r).trace),
      (networkSection cfg w f r).outcome⟩ := by
  unfold optional
  rw [Run.bind_of_ok hd, Run.bind_of_ok he]

theorem optional_inv (cfg : Config) (w : World) (f : Flags) (r : Resolved)
    (h : (optional cfg w f r).outcome = .ok ()) :
    (doxxSection w f r).outcome = .ok () ∧ (employeesSection cfg w f r).outcome = .ok () ∧
      (networkSection cfg w f r).outcome = .ok () := by
  unfold optional at h
  obtain ⟨_, hd, h⟩ := Run.bind_outcome_ok.mp h
  obtain ⟨_, he, hn⟩ := Run.bind_outcome_ok.mp h
  exact ⟨hd, he, hn⟩

theorem calls_mandatory (cfg : Config) (w : World) (org : String) (r : Resolved)
    (h : (mandatory cfg w org).outcome = .ok r) :
    calls (mandatory cfg w org).trace
      = [.getOrganizationByName org, .getOrganizationDetails r.companyID] := by
  obtain ⟨info, rest, details, first, last, s1, s2, city, state, hs, hdom, hid, hd, hstr, _⟩ :=
    mandatory_inv cfg w org r h
  rw [mandatory_of cfg w org info rest r.companyDomain details first last s1 s2 city state
    hs hdom hd hstr, hid]
  rfl

theorem calls_perimeter_head (cfg : Config) (w : World) (f : Flags) (domain : String) :
    ∃ rest, calls (perimeter cfg w f domain).trace = .getSubDomains domain :: rest := by
  unfold perimeter
  simp only [bind_eq, emit, Run.bind_mk_ok, List.singleton_append, calls_cons_redPrintln]
  cases h : (getSubDomains w domain).outcome with
  | error e =>
    rw [Run.bind_of_error h]
    exact ⟨[], calls_getSubDomains w domain⟩
  | ok body =>
    rw [Run.bind_of_ok h]
    simp only [calls_append, calls_getSubDomains, List.singleton_append]
    exact ⟨_, rfl⟩

theorem networkSection_ports (cfg : Config) (w : World) (f : Flags) (r : Resolved)
    (hp : f.ports = true) : networkSection cfg w f r = perimeter cfg w f r.companyDomain := by
  simp [networkSection, hp]

theorem shodanQueries_map (ls : List String) :
    shodanQueries (ls.map (fun l => Call.queryShodan (ipField l))) = ls.map ipField := by
  induction ls with
  | nil => rfl
  | cons l rest ih =>
    simp only [shodanQueries, List.map_cons, List.filterMap_cons, shodanQuery] at ih ⊢
    rw [ih]

/-- C3: in every run of `main` that reaches the network section (lines 510-532)
with the ports flag set and the network flag unset, `getSubDomains` is called
with the resolved domain; and when the run completes, the port lookups made in
the whole run are exactly one `queryShodan` per line of the subdomain
response, in the order of the lines, each with the second comma-separated field
of its line. -/
theorem ports_forces_perimeter (cfg : Config) (w : World) (f : Flags) (r : Resolved)
    (horg : 0 < f.org.length) (hports : f.ports = true) (hnet : f.network = false)
    (hm : (mandatory cfg w f.org).outcome = .ok r)
    (hd : (doxxSection w f r).outcome = .ok ())
    (he : (employeesSection cfg w f r).outcome = .ok ()) :
    Call.getSubDomains r.companyDomain ∈ calls (main cfg w f).trace ∧
      ((main cfg w f).outcome = .ok () →
        ∃ body, w.http (subdomainRequest r.companyDomain) = .ok body ∧
          shodanQueries (calls (main cfg w f).trace) = (Split body "\n").map ipField ∧
          ∀ l ∈ Split body "\n", (Split l ",").get? 1 = some (ipField l)) := by
  have _ := hnet
  rw [main_of_mandatory cfg w f r horg hm, optional_of cfg w f r hd he,
    networkSection_ports cfg w f r hports]
  simp only [calls_append, calls_mandatory cfg w f.org r hm, calls_doxxSection,
    calls_employeesSection, shodanQueries_append]
  constructor
  · obtain ⟨rest, hr⟩ := calls_perimeter_head cfg w f r.companyDomain
    simp [hr]
  · intro hok
    obtain ⟨body, hb, hl, hall⟩ := perimeter_inv cfg w f r.companyDomain hok
    obtain ⟨_, hc, _⟩ := perimeter_ok_trace cfg w f r.companyDomain body hb hl hall
    refine ⟨body, hb, ?_, fun l hm => ipField_eq l (hall l hm).1⟩
    rw [hc]
    simp only [hports, ite_true]
    have h1 : shodanQueries [Call.getOrganizationByName f.org,
        Call.getOrganizationDetails r.companyID] = [] := rfl
    have h2 : shodanQueries (if f.doxx = true then
        [Call.getPerson "name" (Replace r.CEOName " " "-" (-1)) "XX"] else []) = [] := by
      split <;> rfl
    have h3 : shodanQueries (if f.employees = true then
        [Call.getEmployees r.companyDomain] else []) = [] := by
      split <;> rfl
    rw [h1, h2, h3]
    have h4 : shodanQueries (Call.getSubDomains r.companyDomain ::
        (Split body "\n").map (fun l => Call.queryShodan (ipField l)))
        = shodanQueries ((Split body "\n").map (fun l => Call.queryShodan (ipField l))) := rfl
    rw [h4, shodanQueries_map]
    simp

theorem ports_forces_perimeter_witness :
    0 < (acmeFlags false true false false).org.length ∧
      Call.getSubDomains "acme.example" ∈
        calls (main noKeys
          (sampleWorld searchOne detailFull "a.acme.example,1.2.3.4\nb.acme.example,5.6.7.8" [])
          (acmeFlags false true false false)).trace ∧
      (main noKeys
          (sampleWorld searchOne detailFull "a.acme.example,1.2.3.4\nb.acme.example,5.6.7.8" [])
          (acmeFlags false true false false)).outcome = .ok () :=
  ⟨by decide,
    (ports_forces_perimeter noKeys
      (sampleWorld searchOne detailFull "a.acme.example,1.2.3.4\nb.acme.example,5.6.7.8" [])
      (acmeFlags false true false false) ⟨"42", "acme.example", "Jane Doe"⟩
      (by decide) rfl rfl rfl rfl rfl).1, rfl⟩

/-! ## C2: the order of the adapter calls -/

theorem networkSection_off (cfg : Config) (w : World) (f : Flags) (r : Resolved)
    (hp : f.ports = false) (hn : f.network = false) :
    networkSection cfg w f r = Run.pure () := by
  simp [networkSection, hp, hn]

theorem networkSection_on (cfg : Config) (w : World) (f : Flags) (r : Resolved)
    (h : f.network = true ∨ f.ports = true) :
    networkSection cfg w f r = perimeter cfg w f r.companyDomain := by
  rcases h with h | h
  · by_cases hp : f.ports = true <;> simp [networkSection, h, hp]
  · simp [networkSection, h]

/-- C2 (amended): for every non-empty organization name, every setting of the
flags and every world in which the run of `main` completes, the adapter calls
of the run are, in this order: `getOrganizationByName` with the name,
`getOrganizationDetails` with `companyID` (the id of the first suggestion as
JSON, less its first two double quotes), `getPerson` with `name`, the CEO's
first and last name joined by a blank with every blank turned into `-`, and
`XX` exactly when doxx is set, `getEmployees` with the primary domain of the
first suggestion exactly when employees is set, `getSubDomains` with that
domain exactly when network or ports is set, and then, exactly when ports is
set, one `queryShodan` per line of the subdomain response. -/
theorem main_calls (cfg : Config) (w : World) (f : Flags) (horg : 0 < f.org.length)
    (hok : (main cfg w f).outcome = .ok ()) :
    ∃ info rest domain details first last street1 street2 city state portCalls,
      SearchGives w f.org (info :: rest) ∧
      Data (Path info "primary_domain") = .str domain ∧
      DetailGives cfg w (companyIDOf info) details ∧
      DetailStrings details first last street1 street2 city state ∧
      calls (main cfg w f).trace =
        [.getOrganizationByName f.org, .getOrganizationDetails (companyIDOf info)]
          ++ (if f.doxx = true then
                [.getPerson "name" (Replace (first ++ " " ++ last) " " "-" (-1)) "XX"] else [])
          ++ (if f.employees = true then [.getEmployees domain] else [])
          ++ (if f.network = true ∨ f.ports = true then [.getSubDomains domain] else [])
          ++ portCalls ∧
      (f.ports = false → portCalls = []) ∧
      (f.ports = true → ∃ body, w.http (subdomainRequest domain) = .ok body ∧
        portCalls = (Split body "\n").map (fun l => Call.queryShodan (ipField l))) := by
  have hmain := hok
  unfold main at hmain
  simp only [horg, gt_iff_lt, ite_true] at hmain
  obtain ⟨r, hm, hopt⟩ := Run.bind_outcome_ok.mp hmain
  obtain ⟨hd, he, hn⟩ := optional_inv cfg w f r hopt
  obtain ⟨info, rest, details, first, last, s1, s2, city, state, hs, hdom, hid, hdet, hstr, hceo⟩ :=
    mandatory_inv cfg w f.org r hm
  have hcalls : calls (main cfg w f).trace =
      [.getOrganizationByName f.org, .getOrganizationDetails (companyIDOf info)]
        ++ (if f.doxx = true then
              [.getPerson "name" (Replace (first ++ " " ++ last) " " "-" (-1)) "XX"] else [])
        ++ (if f.employees = true then [.getEmployees r.companyDomain] else [])
        ++ calls (networkSection cfg w f r).trace := by
    rw [main_of_mandatory cfg w f r horg hm, optional_of cfg w f r hd he]
    simp only [calls_append, calls_mandatory cfg w f.org r hm, calls_doxxSection,
      calls_employeesSection, hid, hceo, List.append_assoc]
  by_cases hon : f.network = true ∨ f.ports = true
  · rw [networkSection_on cfg w f r hon] at hn hcalls
    obtain ⟨body, hb, hl, hall⟩ := perimeter_inv cfg w f r.companyDomain hn
    obtain ⟨_, hc, _⟩ := perimeter_ok_trace cfg w f r.companyDomain body hb hl hall
    refine ⟨info, rest, r.companyDomain, details, first, last, s1, s2, city, state,
      (if f.ports = true then (Split body "\n").map (fun l => Call.queryShodan (ipField l))
        else []), hs, hdom, hdet, hstr, ?_, ?_, ?_⟩
    · rw [hcalls, hc]
      simp [hon]
    · intro hp
      simp [hp]
    · intro hp
      exact ⟨body, hb, by simp [hp]⟩
  · have hp : f.ports = false := by
      cases h : f.ports
      · rfl
      · exact absurd (Or.inr h) hon
    have hnw : f.network = false := by
      cases h : f.network
      · rfl
      · exact absurd (Or.inl h) hon
    rw [networkSection_off cfg w f r hp hnw] at hcalls
    refine ⟨info, rest, r.companyDomain, details, first, last, s1, s2, city, state, [],
      hs, hdom, hdet, hstr, ?_, fun _ => rfl, ?_⟩
    · rw [hcalls]
      simp [hon, Run.pure, calls_nil]
    · intro h
      rw [hp] at h
      cases h

theorem main_calls_witness :
    0 < (acmeFlags false false true true).org.length ∧
      (main noKeys (sampleWorld searchOne detailFull "" [sampleRecord])
        (acmeFlags false false true true)).outcome = .ok () ∧
      ∃ c, calls (main noKeys (sampleWorld searchOne detailFull "" [sampleRecord])
        (acmeFlags false false true true)).trace
          = [.getOrganizationByName "Acme", .getOrganizationDetails "42",
              .getPerson "name" "Jane-Doe" "XX", c] :=
  have h := main_calls noKeys (sampleWorld searchOne detailFull "" [sampleRecord])
    (acmeFlags false false true true) (by decide) rfl
  ⟨by decide, rfl, h.elim (fun _ _ => ⟨.getEmployees "acme.example", rfl⟩)⟩

/-- C2 as stated fails: with only the ports flag set the run completes, and its
adapter calls are not just the search, the profile and the subdomains: two
port lookups follow. -/
theorem ports_calls_not_listed :
    (main noKeys
        (sampleWorld searchOne detailFull "a.acme.example,1.2.3.4\nb.acme.example,5.6.7.8" [])
        (acmeFlags false true false false)).outcome = .ok () ∧
      calls (main noKeys
        (sampleWorld searchOne detailFull "a.acme.example,1.2.3.4\nb.acme.example,5.6.7.8" [])
        (acmeFlags false true false false)).trace
        = [.getOrganizationByName "Acme", .getOrganizationDetails "42",
            .getSubDomains "acme.example", .queryShodan "1.2.3.4", .queryShodan "5.6.7.8"] ∧
      calls (main noKeys
        (sampleWorld searchOne detailFull "a.acme.example,1.2.3.4\nb.acme.example,5.6.7.8" [])
        (acmeFlags false true false false)).trace
        ≠ [.getOrganizationByName "Acme", .getOrganizationDetails "42",
            .getSubDomains "acme.example"] :=
  ⟨rfl, by decide, by decide⟩

/-! ## C4 and C10: the lines of the subdomain response -/

theorem perimeter_short (cfg : Config) (w : World) (f : Flags) (domain body : String)
    (h : w.http (subdomainRequest domain) = .ok body) (hl : (Split body "\n").length < 2) :
    perimeter cfg w f domain =
      ⟨[.redPrintln "\nNetwork Perimeter from Dig\n", .call (.getSubDomains domain)],
        .error (.fatal [.strings (Split body "\n")])⟩ := by
  rw [perimeter_of cfg w f domain body h, Run.bind_mk_ok]
  simp [hl, abort]

theorem perimeter_fail_first (cfg : Config) (w : World) (f : Flags) (domain body : String)
    (pre post : List String) (bad : String)
    (h : w.http (subdomainRequest domain) = .ok body) (hl : 2 ≤ (Split body "\n").length)
    (hsplit : Split body "\n" = pre ++ bad :: post)
    (hpre : ∀ l ∈ pre, ',' ∈ l.data ∧ lookupOk cfg w f l) (hbad : ',' ∉ bad.data) :
    (perimeter cfg w f domain).outcome = .error .indexOutOfRange ∧
      hostsReported (perimeter cfg w f domain).trace
        = pre.map (fun l => (hostField l, ipField l)) := by
  have hok : ∀ l ∈ pre, (endpointBody cfg w f l).outcome = .ok () :=
    fun l hm => (endpointBody_ok_iff cfg w f l).mpr (hpre l hm)
  have hcomma : ∀ l ∈ pre, ',' ∈ l.data := fun l hm => (hpre l hm).1
  have hlt : ¬ (Split body "\n").length < 2 := by omega
  have hb : (endpointBody cfg w f bad).outcome = .error .indexOutOfRange := by
    rw [endpointBody_no_comma cfg w f bad hbad]
  rw [perimeter_of cfg w f domain body h, Run.bind_mk_ok]
  simp only [hlt, ite_false]
  rw [hsplit, forEach_fail_first _ pre post bad _ hok hb, endpointBody_no_comma cfg w f bad hbad]
  refine ⟨rfl, ?_⟩
  simp only [hostsReported_append, hostsReported_flatten cfg w f pre hcomma]
  simp [hostsReported, hostOf]

theorem exists_first_without {α : Type} (p : α → Prop) (l : List α) (h : ∃ x ∈ l, ¬ p x) :
    ∃ pre bad post, l = pre ++ bad :: post ∧ (∀ x ∈ pre, p x) ∧ ¬ p bad := by
  induction l with
  | nil => obtain ⟨x, hx, _⟩ := h; cases hx
  | cons a rest ih =>
    by_cases ha : p a
    · have hr : ∃ x ∈ rest, ¬ p x := by
        obtain ⟨x, hx, hnp⟩ := h
        rcases List.mem_cons.mp hx with e | m
        · exact absurd (e ▸ ha) hnp
        · exact ⟨x, m, hnp⟩
      obtain ⟨pre, bad, post, e, hpre, hbad⟩ := ih hr
      refine ⟨a :: pre, bad, post, by simp [e], ?_, hbad⟩
      intro x hx
      rcases List.mem_cons.mp hx with e | m
      · exact e ▸ ha
      · exact hpre x m
    · exact ⟨[], a, rest, rfl, by simp, ha⟩

theorem Split_newline_trailing (body : String) (h : body.data.getLast? = some '\n') :
    2 ≤ (Split body "\n").length ∧ ∃ l ∈ Split body "\n", ',' ∉ l.data := by
  obtain ⟨s, hs⟩ : ∃ s, body.data = s ++ ['\n'] := by
    rcases List.eq_nil_or_concat body.data with e | ⟨s, c, e⟩
    · rw [e] at h; simp at h
    · rw [e] at h
      simp at h
      exact ⟨s, by rw [e, h]; simp⟩
  rw [Split_newline, hs, splitScan_single_snoc]
  have hne := splitScan_ne_nil ['\n'] 0 s
  constructor
  · cases hsp : splitScan ['\n'] 0 s with
    | nil => exact absurd hsp hne
    | cons a b => simp
  · refine ⟨String.mk [], ?_, by simp⟩
    simp

/-- C10 (amended): the index `strings.Split(line, ",")[1]` is in range exactly
when the line holds a comma.  Hence, when the subdomain response splits into
at least two lines and some line holds no comma, the lines split into those
before the first such line, that line and the rest; and provided no port
lookup made for an earlier line fails, the loop ends with an index out of
range at that line, after having reported exactly the lines before it.  Every
response that ends with a newline is such a response: it has at least two
lines and its last line is empty. -/
theorem perimeter_comma_or_panic (cfg : Config) (w : World) (f : Flags) (domain body : String)
    (hb : w.http (subdomainRequest domain) = .ok body) (hl : 2 ≤ (Split body "\n").length)
    (hsome : ∃ l ∈ Split body "\n", ',' ∉ l.data) :
    (∀ line : String, 1 < (Split line ",").length ↔ ',' ∈ line.data) ∧
      (∃ pre bad post, Split body "\n" = pre ++ bad :: post ∧ (∀ l ∈ pre, ',' ∈ l.data) ∧
        ',' ∉ bad.data ∧
        ((∀ l ∈ pre, lookupOk cfg w f l) →
          (perimeter cfg w f domain).outcome = .error .indexOutOfRange ∧
          hostsReported (perimeter cfg w f domain).trace
            = pre.map (fun l => (hostField l, ipField l)))) ∧
      (∀ b : String, b.data.getLast? = some '\n' →
        2 ≤ (Split b "\n").length ∧ ∃ l ∈ Split b "\n", ',' ∉ l.data) := by
  refine ⟨Split_comma_get_one_isSome, ?_, Split_newline_trailing⟩
  obtain ⟨pre, bad, post, e, hpre, hbad⟩ :=
    exists_first_without (fun l : String => ',' ∈ l.data) (Split body "\n")
      (by obtain ⟨l, hm, hn⟩ := hsome; exact ⟨l, hm, hn⟩)
  refine ⟨pre, bad, post, e, hpre, hbad, ?_⟩
  intro hlook
  exact perimeter_fail_first cfg w f domain body pre post bad hb hl e
    (fun l hm => ⟨hpre l hm, hlook l hm⟩) hbad

theorem perimeter_comma_or_panic_witness :
    ∃ pre bad post, Split "a.acme.example,1.2.3.4\n" "\n" = pre ++ bad :: post ∧
      (∀ l ∈ pre, ',' ∈ l.data) ∧ ',' ∉ bad.data ∧
      ((∀ l ∈ pre, lookupOk shodanKey
          (sampleWorld searchOne detailFull "a.acme.example,1.2.3.4\n" [])
          (acmeFlags true false false false) l) →
        (perimeter shodanKey (sampleWorld searchOne detailFull "a.acme.example,1.2.3.4\n" [])
          (acmeFlags true false false false) "acme.example").outcome = .error .indexOutOfRange ∧
        hostsReported (perimeter shodanKey
          (sampleWorld searchOne detailFull "a.acme.example,1.2.3.4\n" [])
          (acmeFlags true false false false) "acme.example").trace
            = pre.map (fun l => (hostField l, ipField l))) :=
  (perimeter_comma_or_panic shodanKey
    (sampleWorld searchOne detailFull "a.acme.example,1.2.3.4\n" [])
    (acmeFlags true false false false) "acme.example" "a.acme.example,1.2.3.4\n" rfl
    (by decide) ⟨"", by decide, by decide⟩).2.1

/-- C10 as stated fails: the response has two lines and the second holds no
comma, but with the ports flag and a Shodan key set the lookup for the first
line is answered with something that is no JSON, and the loop ends there in
`log.Fatal`, not at the second line with an index out of range. -/
theorem lookup_fails_before_panic :
    Split "a.acme.example,1.2.3.4\nb.acme.example" "\n" = ["a.acme.example,1.2.3.4", "b.acme.example"] ∧
      ',' ∉ "b.acme.example".data ∧
      (perimeter shodanKey
        (sampleWorld searchOne detailFull "a.acme.example,1.2.3.4\nb.acme.example" [])
        (acmeFlags false true false false) "acme.example").outcome
        = .error (.fatal [.text "Shodan Error ", .text "<html>error</html>", .error]) :=
  ⟨by decide, by decide, rfl⟩

theorem hostField_takeWhile (line : String) :
    hostField line = String.mk (line.data.takeWhile (fun x => x != ',')) := by
  unfold hostField
  rw [Split_comma_get_zero line]
  rfl

/-- C4 (amended): `getSubDomains` returns the response body `body` unchanged.
The perimeter stage splits it on the newline; with fewer than two lines it
ends in `log.Fatal` right after the call of `getSubDomains`, having reported
no host and made no port lookup; otherwise, provided every line holds a comma
and, when the ports flag is set, every port lookup comes back, it reports
exactly one host per line, in the order of the lines, whose hostname is the
text before the first comma of the line and whose IP is the second
comma-separated field of the line. -/
theorem perimeter_reports (cfg : Config) (w : World) (f : Flags) (domain body : String)
    (hb : w.http (subdomainRequest domain) = .ok body) :
    getSubDomains w domain = ⟨[.call (.getSubDomains domain)], .ok body⟩ ∧
      ((Split body "\n").length < 2 →
        perimeter cfg w f domain =
          ⟨[.redPrintln "\nNetwork Perimeter from Dig\n", .call (.getSubDomains domain)],
            .error (.fatal [.strings (Split body "\n")])⟩ ∧
        hostsReported (perimeter cfg w f domain).trace = [] ∧
        shodanQueries (calls (perimeter cfg w f domain).trace) = []) ∧
      (2 ≤ (Split body "\n").length → (∀ l ∈ Split body "\n", ',' ∈ l.data) →
        (∀ l ∈ Split body "\n", lookupOk cfg w f l) →
        hostsReported (perimeter cfg w f domain).trace
          = (Split body "\n").map (fun l => (hostField l, ipField l)) ∧
        ∀ l ∈ Split body "\n",
          hostField l = String.mk (l.data.takeWhile (fun x => x != ',')) ∧
          (Split l ",").get? 1 = some (ipField l)) := by
  refine ⟨getSubDomains_of w domain body hb, ?_, ?_⟩
  · intro hl
    have h := perimeter_short cfg w f domain body hb hl
    refine ⟨h, ?_, ?_⟩
    · rw [h]; rfl
    · rw [h]; rfl
  · intro hl hcomma hlook
    obtain ⟨_, _, hh⟩ := perimeter_ok_trace cfg w f domain body hb hl
      (fun l hm => ⟨hcomma l hm, hlook l hm⟩)
    exact ⟨hh, fun l hm => ⟨hostField_takeWhile l, ipField_eq l (hcomma l hm)⟩⟩

theorem perimeter_reports_witness :
    getSubDomains (sampleWorld searchOne detailFull "a.acme.example,1.2.3.4\nb.acme.example,5.6.7.8" [])
        "acme.example"
      = ⟨[.call (.getSubDomains "acme.example")],
          .ok "a.acme.example,1.2.3.4\nb.acme.example,5.6.7.8"⟩ ∧
    hostsReported (perimeter noKeys
        (sampleWorld searchOne detailFull "a.acme.example,1.2.3.4\nb.acme.example,5.6.7.8" [])
        (acmeFlags false true false false) "acme.example").trace
      = (Split "a.acme.example,1.2.3.4\nb.acme.example,5.6.7.8" "\n").map
          (fun l => (hostField l, ipField l)) :=
  have h := perimeter_reports noKeys
    (sampleWorld searchOne detailFull "a.acme.example,1.2.3.4\nb.acme.example,5.6.7.8" [])
    (acmeFlags false true false false) "acme.example"
    "a.acme.example,1.2.3.4\nb.acme.example,5.6.7.8" rfl
  ⟨h.1, (h.2.2 (by decide) (by decide) (fun l _ _ => ⟨.null, rfl⟩)).1⟩

/-- C4 as stated fails: both lines of the response hold a comma, but with the
ports flag and a Shodan key set the lookup for the first line is answered with
something that is no JSON; the stage ends there and reports one host, not
two. -/
theorem lookup_fails_before_second_host :
    Split "a.acme.example,1.2.3.4\nb.acme.example,5.6.7.8" "\n"
        = ["a.acme.example,1.2.3.4", "b.acme.example,5.6.7.8"] ∧
      ',' ∈ "a.acme.example,1.2.3.4".data ∧ ',' ∈ "b.acme.example,5.6.7.8".data ∧
      hostsReported (perimeter shodanKey
        (sampleWorld searchOne detailFull "a.acme.example,1.2.3.4\nb.acme.example,5.6.7.8" [])
        (acmeFlags false true false false) "acme.example").trace
        = [("a.acme.example", "1.2.3.4")] :=
  ⟨by decide, by decide, by decide, by decide⟩

/-! ## C5: the results of the people search -/

theorem DotPathToSlice_results : DotPathToSlice "results" = ["results"] := by decide

theorem ArrayAppendP_results (xs : List JSON) (v : JSON) :
    ArrayAppendP (.obj [("results", .arr xs)]) v "results"
      = .obj [("results", .arr (xs ++ [v]))] := by
  rfl

theorem foldl_ArrayAppendP (blocks : List Record) (xs : List JSON) :
    blocks.foldl (fun acc s => ArrayAppendP acc (.str (targetResult s)) "results")
        (.obj [("results", .arr xs)])
      = .obj [("results", .arr (xs ++ blocks.map (fun s => JSON.str (targetResult s))))] := by
  induction blocks generalizing xs with
  | nil => simp
  | cons b rest ih =>
    simp only [List.foldl_cons, ArrayAppendP_results, ih, List.map_cons, List.append_assoc,
      List.singleton_append]

theorem searchResults_eq (blocks : List Record) :
    searchResults blocks
      = .obj [("results", .arr (blocks.map (fun s => JSON.str (targetResult s))))] := by
  unfold searchResults
  have h0 : Array New "results" = .obj [("results", .arr [])] := rfl
  rw [h0, foldl_ArrayAppendP]
  simp

theorem getPerson_of (w : World) (queryType query state body : String)
    (h : w.http (personRequest queryType query state) = .ok body) :
    getPerson w queryType query state
      = ⟨[.call (.getPerson queryType query state)],
          .ok (marshal (searchResults (w.records body)))⟩ := by
  unfold personRequest at h
  simp [getPerson, bind_eq, emit, Run.bind_mk_ok, h, Run.pure]

/-- C5 (amended): for every people-search page, `getPerson` returns the JSON
text of a map whose `results` array holds exactly one entry for each
`.ThatsThem-record` block of the page, in document order, whether the block
yields a name or not; so the array has as many entries as the page has
blocks. -/
theorem getPerson_results (w : World) (queryType query state body : String)
    (h : w.http (personRequest queryType query state) = .ok body) :
    getPerson w queryType query state
        = ⟨[.call (.getPerson queryType query state)],
            .ok (marshal (searchResults (w.records body)))⟩ ∧
      Data (Path (some (searchResults (w.records body))) "results")
        = .arr ((w.records body).map (fun s => JSON.str (targetResult s))) ∧
      (Children w (Path (some (searchResults (w.records body))) "results")).length
        = (w.records body).length := by
  have hp : Path (some (searchResults (w.records body))) "results"
      = some (.arr ((w.records body).map (fun s => JSON.str (targetResult s)))) := by
    rw [searchResults_eq]
    rfl
  refine ⟨getPerson_of w queryType query state body h, ?_, ?_⟩
  · rw [hp]; rfl
  · rw [hp]; simp [Children, Data]

theorem getPerson_results_witness :
    (Children (sampleWorld searchOne detailFull "" fourBlocks)
      (Path (some (searchResults
        ((sampleWorld searchOne detailFull "" fourBlocks).records "<html>people</html>")))
        "results")).length
      = ((sampleWorld searchOne detailFull "" fourBlocks).records "<html>people</html>").length :=
  (getPerson_results (sampleWorld searchOne detailFull "" fourBlocks) "name" "Jane-Doe" "XX"
    "<html>people</html>" rfl).2.2

/-- C5 as stated fails: a page with three blocks that yield a name and one that
yields none gives a `results` array of four entries, and the third entry is
the one of the block without a name. -/
theorem nameless_block_kept :
    (fourBlocks.filter (fun s => s.name ≠ "")).length = 3 ∧
      ∃ e1 e2 e3 e4, Data (Path (some (searchResults fourBlocks)) "results")
          = .arr [e1, e2, e3, e4] ∧
        e3 = .str "\x7b\"Address\":\"3 Elm Rd\",\"City\":\"Austin\",\"Name\":\"\",\"Phone\":\"555-0102\",\"State\":\"TX\"\x7d" :=
  ⟨by decide, _, _, _, _, rfl, rfl⟩

/-! ## C6: the report of the people search -/

/-- C6, what the code does: with the doxx flag set, when the people-search page
has at most one record block (and `gabs.ParseJSON` reads back the text
`getPerson` returns), the section calls `getPerson`, prints nothing at all and
completes: one result is not reported, and for none "No results found" is not
printed. -/
theorem ceoDoxx_at_most_one_silent (w : World) (f : Flags) (r : Resolved) (body : String)
    (hf : f.doxx = true)
    (hb : w.http (personRequest "name" (Replace r.CEOName " " "-" (-1)) "XX") = .ok body)
    (hparse : w.parseJSON (marshal (searchResults (w.records body)))
      = some (searchResults (w.records body)))
    (hn : (w.records body).length ≤ 1) :
    doxxSection w f r
      = ⟨[.call (.getPerson "name" (Replace r.CEOName " " "-" (-1)) "XX")], .ok ()⟩ := by
  obtain ⟨hg, _, hlen⟩ := getPerson_results w "name" (Replace r.CEOName " " "-" (-1)) "XX" body hb
  have hlt : ¬ (Children w (Path (some (searchResults (w.records body))) "results")).length > 1 := by
    rw [hlen]; omega
  unfold doxxSection ceoDoxx
  simp only [hf, ite_true, bind_eq, hg, Run.bind_mk_ok, hparse, hlt, ite_false, Run.pure,
    List.append_nil]

theorem ceoDoxx_at_most_one_silent_witness :
    ((sampleWorld searchOne detailFull "" [sampleRecord]).records "<html>people</html>").length = 1 ∧
      doxxSection (sampleWorld searchOne detailFull "" [sampleRecord])
          (acmeFlags false false false true) ⟨"42", "acme.example", "Jane Doe"⟩
        = ⟨[.call (.getPerson "name" "Jane-Doe" "XX")], .ok ()⟩ :=
  ⟨rfl, ceoDoxx_at_most_one_silent (sampleWorld searchOne detailFull "" [sampleRecord])
    (acmeFlags false false false true) ⟨"42", "acme.example", "Jane Doe"⟩ "<html>people</html>"
    rfl rfl rfl (by decide)⟩

/-! ## C7: fields the company profile lacks -/

/-- C7 (amended): for every company profile that parses as JSON and holds the
CEO's first and last name and the four address lines `street1`, `street2`,
`city` and `state` as strings, the OrgDetail section completes, whatever the
profile holds for `founded`, `industrySector.sector_name` and
`hqAddress.country`: a field among these three that is missing or null is
reported as nil (for the sector: as the nil container or the null it holds),
and `main` goes on to the optional stages with the resolved id, domain and CEO
name. -/
theorem orgDetail_unset_fields (cfg : Config) (w : World) (f : Flags) (info : Container)
    (rest : List Container) (domain : String) (details : JSON)
    (first last street1 street2 city state : String)
    (horg : 0 < f.org.length)
    (hs : SearchGives w f.org (info :: rest))
    (hdom : Data (Path info "primary_domain") = .str domain)
    (hd : DetailGives cfg w (companyIDOf info) details)
    (hstr : DetailStrings details first last street1 street2 city state) :
    orgDetail cfg w (companyIDOf info) domain =
        ⟨.call (.getOrganizationDetails (companyIDOf info)) ::
            companyReport details domain (first ++ " " ++ last)
              (street1 ++ " " ++ street2 ++ " " ++ city ++ " " ++ state),
          .ok (first ++ " " ++ last)⟩ ∧
      ((Path (some details) "company_info.company_details.founded" = none ∨
          Path (some details) "company_info.company_details.founded" = some .null) →
        Event.println [.text "Founded:", .value .null]
          ∈ (orgDetail cfg w (companyIDOf info) domain).trace) ∧
      ((Path (some details) "company_info.company_details.hqAddress.country" = none ∨
          Path (some details) "company_info.company_details.hqAddress.country" = some .null) →
        Event.println [.text "Country:", .value .null]
          ∈ (orgDetail cfg w (companyIDOf info) domain).trace) ∧
      (∀ c, Path (some details) "company_info.company_details.industrySector.sector_name" = c →
        Event.println [.text "Industry Sector:", .container c]
          ∈ (orgDetail cfg w (companyIDOf info) domain).trace) ∧
      main cfg w f =
        ⟨(mandatory cfg w f.org).trace ++
            (optional cfg w f ⟨companyIDOf info, domain, first ++ " " ++ last⟩).trace,
          (optional cfg w f ⟨companyIDOf info, domain, first ++ " " ++ last⟩).outcome⟩ := by
  have ho := orgDetail_of cfg w (companyIDOf info) domain details first last street1 street2
    city state hd hstr
  have hm := mandatory_of cfg w f.org info rest domain details first last street1 street2
    city state hs hdom hd hstr
  refine ⟨ho, ?_, ?_, ?_, ?_⟩
  · intro h
    rw [ho]
    have : Data (Path (some details) "company_info.company_details.founded") = .null := by
      rcases h with h | h <;> rw [h] <;> rfl
    simp [companyReport, this]
  · intro h
    rw [ho]
    have : Data (Path (some details) "company_info.company_details.hqAddress.country") = .null := by
      rcases h with h | h <;> rw [h] <;> rfl
    simp [companyReport, this]
  · intro c h
    rw [ho]
    simp [companyReport, h]
  · exact main_of_mandatory cfg w f _ horg (by rw [hm])

theorem orgDetail_unset_fields_witness :
    Path (some (detailJSON (some ""))) "company_info.company_details.founded" = none ∧
      Event.println [.text "Founded:", .value .null]
        ∈ (orgDetail noKeys (sampleWorld searchOne detailFull "" [])
            (companyIDOf (some (.obj [("id", .str "42"), ("primary_domain", .str "acme.example")])))
            "acme.example").trace :=
  ⟨rfl, (orgDetail_unset_fields noKeys (sampleWorld searchOne detailFull "" [])
    (acmeFlags false false false false)
    (some (.obj [("id", .str "42"), ("primary_domain", .str "acme.example")])) []
    "acme.example" (detailJSON (some "")) "Jane" "Doe" "1 Main St" "" "Springfield" "IL"
    (by decide) ⟨searchOne, suggestionJSON "42" "acme.example", rfl, rfl, rfl⟩ rfl
    ⟨detailFull, rfl, rfl⟩ ⟨rfl, rfl, rfl, rfl, rfl, rfl⟩).2.1 (Or.inl rfl)⟩

/-- C7 as stated fails: the profile parses, holds the CEO's first and last name
and lacks `hqAddress.street2`; the OrgDetail section reports nothing and ends
at line 468 in a failed type assertion. -/
theorem missing_street2_panics :
    Path (some (detailJSON none)) "company_info.company_details.hqAddress.street2" = none ∧
      Path (some (detailJSON none)) "ceo.current_ceo.first_name" = some (.str "Jane") ∧
      Path (some (detailJSON none)) "ceo.current_ceo.last_name" = some (.str "Doe") ∧
      main noKeys (sampleWorld searchOne detailNoStreet2 "" []) (acmeFlags false false false false)
        = ⟨[.call (.getOrganizationByName "Acme"), .call (.getOrganizationDetails "42")],
            .error .typeAssertion⟩ :=
  ⟨rfl, rfl, rfl, rfl⟩

/-! ## C8: the resolved id and domain -/

theorem replaceScan_single_length (c : Char) (l : List Char) (n : Nat) :
    l.length ≤ (replaceScan [c] [] (some n) 0 l).length + n := by
  induction l generalizing n with
  | nil => simp [replaceScan]
  | cons x t ih =>
    unfold replaceScan
    split
    · rename_i hc
      have hn : n ≠ 0 := by
        intro e
        exact hc.1 (by rw [e])
      have := ih (n - 1)
      have hz : ([c] : List Char).length - 1 = 0 := rfl
      simp only [Option.map_some', hz, List.nil_append, List.length_cons, List.length_nil,
        Nat.zero_add, Nat.sub_self]
      omega
    · have := ih n
      simp only [List.length_cons]
      omega

theorem escapeChar_ne_nil (c : Char) : escapeChar c ≠ [] := by
  unfold escapeChar
  repeat' split
  all_goals simp

theorem quote_length (s : String) (h : s ≠ "") : 3 ≤ (quote s).data.length := by
  unfold quote
  have hd : s.data ≠ [] := by
    intro e
    apply h
    cases s
    simp_all
  cases hs : s.data with
  | nil => exact absurd hs hd
  | cons c t =>
    have hc := escapeChar_ne_nil c
    have : 1 ≤ (escapeChar c).length := by
      cases he : escapeChar c with
      | nil => exact absurd he hc
      | cons a b => simp
    simp only [List.flatMap_cons, List.length_append, List.length_cons]
    have h1 : ("\"".data).length = 1 := rfl
    omega

theorem companyIDOf_ne_empty (info : Container) (s : String)
    (hid : Data (Path info "id") = .str s) (hs : s ≠ "") : companyIDOf info ≠ "" := by
  unfold companyIDOf Container.String
  rw [hid]
  have hq := quote_length s hs
  have hl := replaceScan_single_length '"' (quote s).data 2
  intro e
  have hlen : (Replace (marshal (.str s)) "\"" "" 2).data.length = 0 := by rw [e]; rfl
  have hr : (Replace (marshal (.str s)) "\"" "" 2).data
      = replaceScan ['"'] [] (some 2) 0 (quote s).data := rfl
  rw [hr] at hlen
  omega

/-- C8 (amended): in every run of `main` in which the OrgResolve and OrgDetail
sections complete, at the point where the first optional stage is evaluated
`companyDomain` is the string the first suggestion holds as `primary_domain`
and `companyID` is the JSON text of its `id` less the first two double quotes;
`companyDomain` is non-empty unless that `primary_domain` is the empty string,
and `companyID` is non-empty whenever that `id` is a non-empty string. -/
theorem resolved_identity (cfg : Config) (w : World) (f : Flags) (r : Resolved)
    (horg : 0 < f.org.length) (hm : (mandatory cfg w f.org).outcome = .ok r) :
    main cfg w f = Run.bind (mandatory cfg w f.org) (optional cfg w f) ∧
      ∃ info rest, SearchGives w f.org (info :: rest) ∧
        Data (Path info "primary_domain") = .str r.companyDomain ∧
        r.companyID = Replace (Path info "id").String "\"" "" 2 ∧
        (Data (Path info "primary_domain") ≠ .str "" → r.companyDomain ≠ "") ∧
        (∀ s, Data (Path info "id") = .str s → s ≠ "" → r.companyID ≠ "") := by
  constructor
  · unfold main
    simp [horg]
  · obtain ⟨info, rest, _, _, _, _, _, _, _, hs, hdom, hid, _, _, _⟩ :=
      mandatory_inv cfg w f.org r hm
    refine ⟨info, rest, hs, hdom, hid, ?_, ?_⟩
    · intro hne e
      rw [e] at hdom
      exact hne hdom
    · intro s h1 h2
      rw [hid]
      exact companyIDOf_ne_empty info s h1 h2

theorem resolved_identity_witness :
    0 < (acmeFlags false false false false).org.length ∧
      (mandatory noKeys (sampleWorld searchOne detailFull "" []) "Acme").outcome
        = .ok ⟨"42", "acme.example", "Jane Doe"⟩ ∧
      main noKeys (sampleWorld searchOne detailFull "" []) (acmeFlags false false false false)
        = Run.bind (mandatory noKeys (sampleWorld searchOne detailFull "" []) "Acme")
            (optional noKeys (sampleWorld searchOne detailFull "" [])
              (acmeFlags false false false false)) :=
  ⟨by decide, rfl,
    (resolved_identity noKeys (sampleWorld searchOne detailFull "" [])
      (acmeFlags false false false false) ⟨"42", "acme.example", "Jane Doe"⟩ (by decide) rfl).1⟩

/-- C8 as stated fails: the first suggestion holds an empty `id` and an empty
`primary_domain`; OrgResolve and OrgDetail complete, and the optional stages
start with an empty `companyID` and an empty `companyDomain`. -/
theorem blank_identity_resolved :
    (mandatory noKeys (sampleWorld searchBlank detailFull "" []) "Acme").outcome
        = .ok ⟨"", "", "Jane Doe"⟩ ∧
      main noKeys (sampleWorld searchBlank detailFull "" []) (acmeFlags false false true false)
        = Run.bind (mandatory noKeys (sampleWorld searchBlank detailFull "" []) "Acme")
            (optional noKeys (sampleWorld searchBlank detailFull "" [])
              (acmeFlags false false true false)) ∧
      Call.getEmployees "" ∈ calls (main noKeys (sampleWorld searchBlank detailFull "" [])
        (acmeFlags false false true false)).trace :=
  ⟨rfl, rfl, by decide⟩

/-! ## Supplements: the id of an ordinary suggestion, and two or more people -/

theorem replaceScan_single_none (c : Char) (l : List Char) (n : Option Nat) (h : c ∉ l) :
    replaceScan [c] [] n 0 l = l := by
  induction l with
  | nil => simp [replaceScan]
  | cons x t ih =>
    have hx : ¬ (c = x) := fun e => h (by simp [e])
    have ht : c ∉ t := fun m => h (List.mem_cons_of_mem _ m)
    simp [replaceScan, List.isPrefixOf, hx, ih ht]

theorem replaceScan_closing (c : Char) (l : List Char) (h : c ∉ l) :
    replaceScan [c] [] (some 1) 0 (l ++ [c]) = l := by
  induction l with
  | nil => simp [replaceScan, List.isPrefixOf]
  | cons x t ih =>
    have hx : ¬ (c = x) := fun e => h (by simp [e])
    have ht : c ∉ t := fun m => h (List.mem_cons_of_mem _ m)
    simp [replaceScan, List.isPrefixOf, hx, ih ht]

theorem flatMap_escapeChar_plain (l : List Char) (h : ∀ c ∈ l, escapeChar c = [c]) :
    l.flatMap escapeChar = l := by
  induction l with
  | nil => rfl
  | cons x t ih =>
    have hx := h x (by simp)
    have ht : ∀ c ∈ t, escapeChar c = [c] := fun c m => h c (List.mem_cons_of_mem _ m)
    simp [List.flatMap_cons, hx, ih ht]

/-- The variable `companyID` is the id of the suggestion itself when that id is
a string of characters that JSON writes as they are. -/
theorem companyIDOf_plain (info : Container) (s : String)
    (hid : Data (Path info "id") = .str s) (hplain : ∀ c ∈ s.data, escapeChar c = [c]) :
    companyIDOf info = s := by
  have hq : '"' ∉ s.data := by
    intro m
    have := hplain '"' m
    revert this
    decide
  unfold companyIDOf Container.String
  rw [hid]
  have hr : (Replace (marshal (.str s)) "\"" "" 2)
      = String.mk (replaceScan ['"'] [] (some 2) 0 ('"' :: (s.data.flatMap escapeChar ++ ['"']))) :=
    rfl
  rw [hr, flatMap_escapeChar_plain s.data hplain]
  have h1 : replaceScan ['"'] [] (some 2) 0 ('"' :: (s.data ++ ['"']))
      = replaceScan ['"'] [] (some 1) 0 (s.data ++ ['"']) := by
    simp [replaceScan, List.isPrefixOf]
  rw [h1, replaceScan_closing '"' s.data hq]

theorem replaceScan_single_same_length (c d : Char) (l : List Char) :
    (replaceScan [c] [d] none 0 l).length = l.length := by
  induction l with
  | nil => simp [replaceScan]
  | cons x t ih =>
    unfold replaceScan
    split <;> simp [ih]

theorem Replace_single_same_length (s old new : String) (c d : Char)
    (ho : old.data = [c]) (hn : new.data = [d]) :
    (Replace s old new (-1)).length = s.length := by
  have hne : ¬ ([c] : List Char) = [] := by simp
  have hlim : (if (-1 : Int) < 0 then (none : Option Nat) else some (-1 : Int).toNat) = none := rfl
  unfold Replace
  simp only [ho, hn, hne, hlim, if_false]
  exact replaceScan_single_same_length c d s.data

theorem identityResult_length (c : Container) :
    (identityResult c).length = c.String.length := by
  unfold identityResult
  simp only [List.foldl_cons, List.foldl_nil]
  rw [Replace_single_same_length _ "\x7d" " " '\x7d' ' ' rfl rfl,
    Replace_single_same_length _ "\x7b" " " '\x7b' ' ' rfl rfl,
    Replace_single_same_length _ "\\" " " '\\' ' ' rfl rfl,
    Replace_single_same_length _ "\"" " " '"' ' ' rfl rfl]

theorem identityResult_str_pos (t : String) : (identityResult (some (.str t))).length > 0 := by
  rw [identityResult_length]
  show (quote t).data.length > 0
  unfold quote
  simp

theorem forEach_emit {α : Type} (e : α → Event) (xs : List α) :
    forEach (fun x => emit (e x)) xs = ⟨xs.map e, .ok ()⟩ := by
  induction xs with
  | nil => rfl
  | cons x rest ih =>
    show Run.bind (emit (e x)) (fun _ => forEach (fun x => emit (e x)) rest) = _
    rw [ih]
    rfl

/-- With two or more record blocks on the people-search page the section does
report them: a heading, and then one line per block, in document order. -/
theorem ceoDoxx_two_or_more_reported (w : World) (ceo body : String)
    (hb : w.http (personRequest "name" (Replace ceo " " "-" (-1)) "XX") = .ok body)
    (hparse : w.parseJSON (marshal (searchResults (w.records body)))
      = some (searchResults (w.records body)))
    (hn : 2 ≤ (w.records body).length) :
    ceoDoxx w ceo
      = ⟨.call (.getPerson "name" (Replace ceo " " "-" (-1)) "XX") ::
          .redPrintln "\n*CEO Personal Details: " ::
          (w.records body).map (fun s =>
            Event.println [.text (identityResult (some (.str (targetResult s))))]),
        .ok ()⟩ := by
  have hg := getPerson_of w "name" (Replace ceo " " "-" (-1)) "XX" body hb
  have hc : Children w (Path (some (searchResults (w.records body))) "results")
      = (w.records body).map (fun s => some (JSON.str (targetResult s))) := by
    have hp : Path (some (searchResults (w.records body))) "results"
        = some (.arr ((w.records body).map (fun s => JSON.str (targetResult s)))) := by
      rw [searchResults_eq]
      rfl
    rw [hp]
    simp [Children, Data]
  have hlen : (Children w (Path (some (searchResults (w.records body))) "results")).length > 1 := by
    rw [hc, List.length_map]
    omega
  have hbody : (fun r : Container =>
        if (identityResult r).length > 0 then emit (.println [.text (identityResult r)])
        else emit (.println [.text "No results found"]))
      = fun r => emit (if (identityResult r).length > 0 then .println [.text (identityResult r)]
          else .println [.text "No results found"]) := by
    funext r
    split <;> rfl
  unfold ceoDoxx
  simp only [bind_eq, hg, Run.bind_mk_ok, hparse, hlen, ite_true, emit]
  have hfe := forEach_emit (fun r : Container =>
      if (identityResult r).length > 0 then Event.println [.text (identityResult r)]
      else Event.println [.text "No results found"])
    (Children w (Path (some (searchResults (w.records body))) "results"))
  simp only [emit] at hfe hbody
  rw [hbody, hfe, hc]
  simp [List.map_map, Function.comp, identityResult_str_pos]

/-! ## C9: the fan-out of `queryPTAll` -/

theorem queryPTAll_ok_iff (acc : Account) (w : World)
    (schedule : List (String × String) → List (String × String)) (Query : String)
    (hperm : (schedule (goroutines Query)).Perm (goroutines Query)) :
    (queryPTAll acc w schedule Query).outcome = .ok () ↔
      ∀ g ∈ goroutines Query, (queryPassiveTotal acc w g.1 g.2).outcome = .ok () := by
  unfold queryPTAll
  rw [forEach_ok_iff]
  constructor
  · intro h g hg
    exact h g (hperm.mem_iff.mpr hg)
  · intro h g hg
    exact h g (hperm.mem_iff.mp hg)

/-- C9 (amended): for every query, `queryPTAll` starts exactly one
`queryPassiveTotal` goroutine for each of the three endpoints `dnsPassive`,
`enrichment` and `whoisURL`.  In whatever order the three run, it returns
exactly when all three succeed, and then every one of them has completed and
printed its answer.  When a goroutine fails, the process ends there: the
goroutines that completed before it have printed their answers, those that had
not completed yet are dropped, and `queryPTAll` does not return (nor does it
block: the run is over). -/
theorem queryPTAll_join (acc : Account) (w : World)
    (schedule : List (String × String) → List (String × String)) (Query : String)
    (hperm : (schedule (goroutines Query)).Perm (goroutines Query)) :
    goroutines Query = [(dnsPassive, Query), (enrichment, Query), (whoisURL, Query)] ∧
      ((queryPTAll acc w schedule Query).outcome = .ok () ↔
        ∀ g ∈ goroutines Query, (queryPassiveTotal acc w g.1 g.2).outcome = .ok ()) ∧
      ((queryPTAll acc w schedule Query).outcome = .ok () →
        (queryPTAll acc w schedule Query).trace
          = ((schedule (goroutines Query)).map
              (fun g => (queryPassiveTotal acc w g.1 g.2).trace)).flatten) ∧
      (∀ pre bad post e, schedule (goroutines Query) = pre ++ bad :: post →
        (∀ g ∈ pre, (queryPassiveTotal acc w g.1 g.2).outcome = .ok ()) →
        (queryPassiveTotal acc w bad.1 bad.2).outcome = .error e →
        queryPTAll acc w schedule Query
          = ⟨(pre.map (fun g => (queryPassiveTotal acc w g.1 g.2).trace)).flatten
              ++ (queryPassiveTotal acc w bad.1 bad.2).trace, .error e⟩) := by
  refine ⟨rfl, queryPTAll_ok_iff acc w schedule Query hperm, ?_, ?_⟩
  · intro hok
    unfold queryPTAll at hok ⊢
    exact forEach_trace_of_ok _ _ ((forEach_ok_iff _ _).mp hok)
  · intro pre bad post e hs hpre hbad
    unfold queryPTAll
    rw [hs]
    exact forEach_fail_first (fun g => queryPassiveTotal acc w g.1 g.2) pre post bad e hpre hbad

theorem queryPTAll_join_witness :
    (id (goroutines "example.com")).Perm (goroutines "example.com") ∧
      queryPTAll sampleAccount passiveWorld id "example.com"
        = ⟨[.println [.text "\x7b\x7d"]], .error (.fatal [.text "Error ", .error])⟩ :=
  ⟨List.Perm.refl _,
    (queryPTAll_join sampleAccount passiveWorld id "example.com" (List.Perm.refl _)).2.2.2
      [(dnsPassive, "example.com")] (enrichment, "example.com") [(whoisURL, "example.com")]
      (.fatal [.text "Error ", .error]) rfl (by intro g hg; simp at hg; subst hg; rfl) rfl⟩

/-- C9 as stated fails: the goroutines for `dnsPassive` and `whoisURL` succeed
and the one for `enrichment` fails; when that one gets there first the process
ends in `log.Fatal` before either answer is printed, so both successes are
dropped and `queryPTAll` does not return. -/
theorem fatal_drops_siblings :
    (queryPassiveTotal sampleAccount passiveWorld dnsPassive "example.com")
        = ⟨[.println [.text "\x7b\x7d"]], .ok ()⟩ ∧
      (queryPassiveTotal sampleAccount passiveWorld whoisURL "example.com")
        = ⟨[.println [.text "\x7b\x7d"]], .ok ()⟩ ∧
      (queryPassiveTotal sampleAccount passiveWorld enrichment "example.com").outcome
        = .error (.fatal [.text "Error ", .error]) ∧
      enrichmentFirst (goroutines "example.com")
        = [(enrichment, "example.com"), (dnsPassive, "example.com"), (whoisURL, "example.com")] ∧
      queryPTAll sampleAccount passiveWorld enrichmentFirst "example.com"
        = ⟨[], .error (.fatal [.text "Error ", .error])⟩ :=
  ⟨rfl, rfl, rfl, by decide, rfl⟩

end ReconTools
